import Mathlib

/-!
# Verification of the libxo core (`libxo.c`)

A shallow embedding of the format-string emitter and structural stack of
`libxo.c`, together with theorems settling the specification claims about it.

Modelling conventions, used throughout:

* C strings are `List Char` (the terminating NUL is not stored; a scan that
  would dereference bytes past the NUL is represented explicitly, see
  `modScan`); names handed to the structural API are Lean `String`s.
* Machine integers are `Int`/`Nat`; the two `unsigned short` counters
  (`xo_indent`, `xo_indent_by`) wrap modulo 2^16 where the code can make them
  wrap.
* The allocator (`xo_realloc`) is modelled as succeeding, and freshly
  allocated memory as zero-filled, except where a claim is about the
  allocation itself (`xo_buf_has_room` takes the allocation outcome as an
  argument).
* The sink is a function `List Char → Int`: the write callback's return value
  for the written payload.  Each `xo_printf`/`xo_emit_hv` write is logged in
  `xo_out`.
-/

set_option autoImplicit false

namespace Libxo

/-- The byte 0x7b, `{` (kept out of string literals). -/
def lbrace : Char := Char.ofNat 123

/-- The byte 0x7d, `}` (kept out of string literals). -/
def rbrace : Char := Char.ofNat 125

/-- Constant `XO_BUFSIZ`: initial buffer size and fixed grow chunk (8*1024). -/
def XO_BUFSIZ : Nat := 8192

/-- Constant `XO_INDENT_BY`: default pretty-print indent amount. -/
def XO_INDENT_BY : Nat := 2

/-- Constant `XO_DEPTH`: default stack depth. -/
def XO_DEPTH : Nat := 512

/-- The four output styles (`XO_STYLE_*`). -/
inductive XoStyle where
  | text
  | xml
  | json
  | html
deriving DecidableEq, Repr

/-- Handle flags (`XOF_*`), as independent booleans.  `XOF_DIV_OPEN` is kept
as a separate mutable field of the handle (`xo_divOpen`) since it is internal
renderer state, not caller configuration. -/
structure XoFlags where
  pretty : Bool := false
  warn : Bool := false
  xpath : Bool := false
  info : Bool := false
  closeFp : Bool := false
  warnXml : Bool := false
deriving DecidableEq, Repr

/-- Per-field flags (`XFF_*`).  `XFF_COMMA` is defined in the source but never
set; `XFF_HIDE` is set by the `H` modifier but never read. -/
structure XoFieldFlags where
  colon : Bool := false
  comma : Bool := false
  ws : Bool := false
  hide : Bool := false
  quote : Bool := false
  noquote : Bool := false
deriving DecidableEq, Repr

/-- One structural stack frame (`xo_stack_t`): the `xs_flags` bits
(`XSF_NOT_FIRST`, `XSF_LIST`, `XSF_INSTANCE`) and the optional owned name. -/
structure xo_stack_t where
  xs_notFirst : Bool := false
  xs_list : Bool := false
  xs_instance : Bool := false
  xs_name : Option String := none
deriving DecidableEq, Repr

/-- The `XSF_LIST`/`XSF_INSTANCE` bits passed as the `flags` argument of
`xo_depth_change` (`XSF_NOT_FIRST` is never passed there). -/
structure XsfBits where
  list : Bool := false
  inst : Bool := false
deriving DecidableEq, Repr

/-- The warnings `xo_warn` can emit, as structured values (the C code formats
them as text on stderr; the payloads are the `%s` arguments). -/
inductive XoWarning where
  | closeWithEmptyStack (name : String)
  | incorrectClose (name top : String)
  | listCloseConflict (name : String)
  | instanceCloseConflict (name : String)
  | multipleStyles (fmt : String)
  | unknownModifier (fmt : String)
deriving DecidableEq, Repr

/-- An info-table entry (`xo_info_t`). -/
structure xo_info_t where
  xi_name : String
  xi_type : Option String := none
  xi_help : Option String := none
deriving DecidableEq, Repr

/-!
## The growable buffer (`xo_buffer_t`)

For the buffer-safety claim the buffer is modelled by its allocated size and
the offset of the insertion point (`xb_curp - xb_bufp`); the byte contents are
irrelevant to the claim.
-/

/-- Structure `xo_buffer_t`, reduced to allocation size and insertion offset. -/
structure xo_buffer_t where
  xb_size : Nat
  xb_off : Nat
deriving DecidableEq, Repr

/-- Embedding of `xo_buf_has_room`: if `curp + len >= bufp + size`, grow the
buffer by one `XO_BUFSIZ` chunk (returning 0 if `xo_realloc` fails, modelled
by `allocOk`); otherwise leave it alone.  Returns the C function's `int`
result as a `Bool` together with the possibly grown buffer.  Note the source
grows by exactly one chunk and does not re-check the requested length. -/
def xo_buf_has_room (xbp : xo_buffer_t) (len : Nat) (allocOk : Bool) :
    Bool × xo_buffer_t :=
  if xbp.xb_size ≤ xbp.xb_off + len then
    if allocOk then
      (true, { xbp with xb_size := xbp.xb_size + XO_BUFSIZ })
    else
      (false, xbp)
  else
    (true, xbp)

/-- The `memcpy` performed by `xo_buf_append` stays within the buffer exactly
when `len` bytes fit between the insertion point and the end. -/
def memcpyInBounds (xbp : xo_buffer_t) (len : Nat) : Prop :=
  xbp.xb_off + len ≤ xbp.xb_size

instance (xbp : xo_buffer_t) (len : Nat) : Decidable (memcpyInBounds xbp len) := by
  unfold memcpyInBounds; infer_instance

/-- Embedding of `xo_buf_append`: ask `xo_buf_has_room`, and if it reports
success, copy `len` bytes at the insertion point and advance it. -/
def xo_buf_append (xbp : xo_buffer_t) (len : Nat) (allocOk : Bool) : xo_buffer_t :=
  match xo_buf_has_room xbp len allocOk with
  | (false, b) => b
  | (true, b) => { b with xb_off := b.xb_off + len }

/-!
## The handle (`xo_handle_t`)
-/

/-- The handle (`xo_handle_t`).  The two byte buffers appear as their
payloads: `xo_fmtbuf` is the contents of the format-work buffer `xo_fmt`
(reset at the end of each emission), and `xo_out` logs each payload handed to
the write callback (one entry per sink write; the data buffer's bytes are
exactly the last written payload).  `xo_sink` is the write callback's return
value on a given payload. -/
structure xo_handle_t where
  xo_style : XoStyle
  xo_flags : XoFlags
  xo_indent : Nat
  xo_indent_by : Nat
  xo_depth : Int
  xo_stack : Nat → xo_stack_t
  xo_info : List xo_info_t
  xo_fmtbuf : List Char
  xo_out : List (List Char)
  xo_warnings : List XoWarning
  xo_divOpen : Bool
  xo_sink : List Char → Int

/-- Functional update of one stack slot. -/
def stackUpd (s : Nat → xo_stack_t) (i : Nat) (f : xo_stack_t) : Nat → xo_stack_t :=
  fun j => if j = i then f else s j

@[simp]
theorem stackUpd_same (s : Nat → xo_stack_t) (i : Nat) (f : xo_stack_t) :
    stackUpd s i f i = f := by
  simp [stackUpd]

theorem stackUpd_other (s : Nat → xo_stack_t) (i j : Nat) (f : xo_stack_t)
    (h : j ≠ i) : stackUpd s i f j = s j := by
  simp [stackUpd, h]

@[simp]
theorem stackUpd_self (s : Nat → xo_stack_t) (i : Nat) :
    stackUpd s i (s i) = s := by
  funext j
  by_cases hj : j = i <;> simp [stackUpd, hj]

/-- Addition of a signed delta on an `unsigned short`, as the C code performs on
`xo_indent`. -/
def addIndent (cur : Nat) (d : Int) : Nat :=
  (((cur : Int) + d).emod 65536).toNat

/-- Embedding of `xo_indent`: the number of spaces to indent by, which is
`indent * indent_by` when pretty-printing and zero otherwise. -/
def xo_indent_spaces (xop : xo_handle_t) : Nat :=
  if xop.xo_flags.pretty then xop.xo_indent * xop.xo_indent_by else 0

/-- A run of `n` spaces. -/
def spaces (n : Nat) : List Char := List.replicate n ' '

/-!
## Handle creation and `LIBXO_OPTIONS` (`xo_init_handle`, `xo_create`)
-/

/-- The all-zero handle record: the static `xo_default_handle` before first
use.  (For handles from `xo_create` the C record comes from `xo_realloc` and
the fields that `xo_create`/`xo_init_handle` do not store are indeterminate;
they are modelled as zero, like the static default handle.)  The sink is the
default stdout writer, whose `fprintf` return value is the payload length. -/
def emptyHandle : xo_handle_t where
  xo_style := .text
  xo_flags := {}
  xo_indent := 0
  xo_indent_by := 0
  xo_depth := 0
  xo_stack := fun _ => {}
  xo_info := []
  xo_fmtbuf := []
  xo_out := []
  xo_warnings := []
  xo_divOpen := false
  xo_sink := fun s => (s.length : Int)

/-- Numeric value of a digit run (what `atoi` returns on it). -/
def digitsVal (l : List Char) : Nat :=
  l.foldl (fun a c => a * 10 + (c.toNat - 48)) 0

/-- Embedding of the `LIBXO_OPTIONS` parsing loop in `xo_init_handle`: one
option character per iteration; after `i<digits>` the code does
`env += sz - 1` and the loop's `env++` then lands on the *last* digit, which
is re-processed (and ignored, digits not being option characters) — modelled
by `rest.drop (ds.length - 1)`.  Unknown characters are ignored. -/
def applyEnv : List Char → xo_handle_t → xo_handle_t
  | [], x => x
  | c :: rest, x =>
    if c = 'H' then applyEnv rest { x with xo_style := .html }
    else if c = 'I' then applyEnv rest { x with xo_flags := { x.xo_flags with info := true } }
    else if c = 'i' then
      let ds := rest.takeWhile (fun d => d.isDigit)
      if 0 < ds.length then
        applyEnv (rest.drop (ds.length - 1))
          { x with xo_indent_by := digitsVal ds % 65536 }
      else
        applyEnv rest x
    else if c = 'J' then applyEnv rest { x with xo_style := .json }
    else if c = 'P' then applyEnv rest { x with xo_flags := { x.xo_flags with pretty := true } }
    else if c = 'T' then applyEnv rest { x with xo_style := .text }
    else if c = 'W' then applyEnv rest { x with xo_flags := { x.xo_flags with warn := true } }
    else if c = 'X' then applyEnv rest { x with xo_style := .xml }
    else if c = 'x' then applyEnv rest { x with xo_flags := { x.xo_flags with xpath := true } }
    else applyEnv rest x
termination_by l => l.length
decreasing_by
  all_goals simp_all [List.length_drop]
  all_goals omega

/-- Embedding of `xo_init_handle`: wire the sink to stdout, initialise the
two buffers, set `xo_indent_by` to `XO_INDENT_BY`, allocate the stack, and
apply the characters of `LIBXO_OPTIONS` (`env`, or `none` when the variable
is unset) — note the source applies the environment options inside
`xo_init_handle`, i.e. on *every* handle initialisation, not only for the
default handle. -/
def xo_init_handle (env : Option String) (x : xo_handle_t) : xo_handle_t :=
  let x := { x with
    xo_sink := fun s => (s.length : Int),
    xo_fmtbuf := [],
    xo_out := [],
    xo_indent_by := XO_INDENT_BY,
    xo_stack := fun _ => {} }
  match env with
  | none => x
  | some e => applyEnv e.toList x

/-- Embedding of `xo_create`: allocate a record, store the requested style
and flags, then run `xo_init_handle` on it. -/
def xo_create (style : XoStyle) (flags : XoFlags) (env : Option String) : xo_handle_t :=
  xo_init_handle env { emptyHandle with xo_style := style, xo_flags := flags }

/-- Embedding of `xo_default_init`: initialise the static (zeroed) default
handle via `xo_init_handle`. -/
def xo_default_init (env : Option String) : xo_handle_t :=
  xo_init_handle env emptyHandle

/-!
## The structural stack (`xo_depth_change`) and structural operations
-/

/-- The mismatch warnings a proper pop can emit (when `XOF_WARN` is on):
wrong name, list-bit conflict, instance-bit conflict. -/
def popWarnings (xop : xo_handle_t) (name : String) (fl : XsfBits) : List XoWarning :=
  let top := xop.xo_stack xop.xo_depth.toNat
  if xop.xo_flags.warn then
    (match top.xs_name with
      | some t => if t ≠ name then [.incorrectClose name t] else []
      | none => []) ++
    (if top.xs_list ≠ fl.list then [.listCloseConflict name] else []) ++
    (if top.xs_instance ≠ fl.inst then [.instanceCloseConflict name] else [])
  else []

/-- Embedding of `xo_depth_change`.

Push (`delta >= 0`): write the new frame's flags at `stack[depth + delta]`
and, when `XOF_XPATH` or `XOF_WARN` is on, copy and own the name (the slot's
previous `xs_name` is *not* cleared otherwise — `xs_flags` is assigned,
`xs_name` only conditionally).

Pop: at depth 0, warn (when `XOF_WARN`) and return with nothing changed;
otherwise emit the name/list/instance mismatch warnings (when `XOF_WARN`),
free the owned name — only when `XOF_XPATH` is on — and apply the depth and
indent deltas. -/
def xo_depth_change (xop : xo_handle_t) (name : String) (delta : Int)
    (indent : Int) (fl : XsfBits) : xo_handle_t :=
  if 0 ≤ delta then
    let idx := (xop.xo_depth + delta).toNat
    let old := xop.xo_stack idx
    let fr : xo_stack_t :=
      { xs_notFirst := false, xs_list := fl.list, xs_instance := fl.inst,
        xs_name :=
          if xop.xo_flags.xpath ∨ xop.xo_flags.warn then some name
          else old.xs_name }
    { xop with
      xo_stack := stackUpd xop.xo_stack idx fr,
      xo_depth := xop.xo_depth + delta,
      xo_indent := addIndent xop.xo_indent indent }
  else if xop.xo_depth = 0 then
    if xop.xo_flags.warn then
      { xop with xo_warnings := xop.xo_warnings ++ [.closeWithEmptyStack name] }
    else
      xop
  else
    let idx := xop.xo_depth.toNat
    let top := xop.xo_stack idx
    let x1 := { xop with xo_warnings := xop.xo_warnings ++ popWarnings xop name fl }
    let x2 :=
      if x1.xo_flags.xpath then
        { x1 with xo_stack := stackUpd x1.xo_stack idx { top with xs_name := none } }
      else x1
    { x2 with
      xo_depth := x2.xo_depth + delta,
      xo_indent := addIndent x2.xo_indent indent }

/-- Embedding of `xo_printf`: format into the data buffer, hand the buffer to
the write callback, and return the callback's return value.  Buffer growth is
modelled as succeeding, so the formatted payload is complete. -/
def xo_printf (xop : xo_handle_t) (s : List Char) : xo_handle_t × Int :=
  ({ xop with xo_out := xop.xo_out ++ [s] }, xop.xo_sink s)

/-- The `%s` value of `ppn` in the structural operations: a newline when
pretty-printing. -/
def ppnOf (xop : xo_handle_t) : List Char :=
  if xop.xo_flags.pretty then ['\n'] else []

/-- The JSON child separator (`pre_nl`) used when the current frame already
has `XSF_NOT_FIRST` set. -/
def jsonSep (xop : xo_handle_t) : List Char :=
  if xop.xo_flags.pretty then [',', '\n'] else [',', ' ']

/-- Set `XSF_NOT_FIRST` on `stack[depth]`. -/
def markNotFirst (xop : xo_handle_t) : xo_handle_t :=
  let idx := xop.xo_depth.toNat
  let fr := { xop.xo_stack idx with xs_notFirst := true }
  { xop with xo_stack := stackUpd xop.xo_stack idx fr }

/-- Embedding of `xo_open_container_h` (the `xop = xo_default(xop)` handle
resolution is implicit: the embedding always receives the resolved handle). -/
def xo_open_container_h (xop : xo_handle_t) (name : String) : xo_handle_t × Int :=
  match xop.xo_style with
  | .xml =>
    let (x1, rc) := xo_printf xop
      (spaces (xo_indent_spaces xop) ++ '<' :: name.toList ++ ['>'] ++ ppnOf xop)
    (xo_depth_change x1 name 1 1 {}, rc)
  | .json =>
    let pre_nl : List Char :=
      if (xop.xo_stack xop.xo_depth.toNat).xs_notFirst then jsonSep xop else []
    let x0 := markNotFirst xop
    let (x1, rc) := xo_printf x0
      (pre_nl ++ spaces (xo_indent_spaces x0) ++
        '"' :: name.toList ++ '"' :: ':' :: ' ' :: lbrace :: ppnOf x0)
    (xo_depth_change x1 name 1 1 {}, rc)
  | .html =>
    (xo_depth_change xop name 1 0 {}, 0)
  | .text =>
    (xo_depth_change xop name 1 0 {}, 0)

/-- Embedding of `xo_close_container_h`.  In JSON, `ppn` is a trailing
newline exactly when the (pre-pop) depth is at most 1, and after the pop the
new top frame is marked `XSF_NOT_FIRST`. -/
def xo_close_container_h (xop : xo_handle_t) (name : String) : xo_handle_t × Int :=
  match xop.xo_style with
  | .xml =>
    let x1 := xo_depth_change xop name (-1) (-1) {}
    xo_printf x1
      (spaces (xo_indent_spaces x1) ++ '<' :: '/' :: name.toList ++ ['>'] ++ ppnOf x1)
  | .json =>
    let pre_nl : List Char := if xop.xo_flags.pretty then ['\n'] else []
    let ppn : List Char := if xop.xo_depth ≤ 1 then ['\n'] else []
    let x1 := xo_depth_change xop name (-1) (-1) {}
    let (x2, rc) := xo_printf x1
      (pre_nl ++ spaces (xo_indent_spaces x1) ++ rbrace :: ppn)
    (markNotFirst x2, rc)
  | .html =>
    (xo_depth_change xop name (-1) 0 {}, 0)
  | .text =>
    (xo_depth_change xop name (-1) 0 {}, 0)

/-- Embedding of `xo_open_list_h`: a no-op (returning 0) in every style but
JSON. -/
def xo_open_list_h (xop : xo_handle_t) (name : String) : xo_handle_t × Int :=
  match xop.xo_style with
  | .json =>
    let pre_nl : List Char :=
      if (xop.xo_stack xop.xo_depth.toNat).xs_notFirst then jsonSep xop else []
    let x0 := markNotFirst xop
    let (x1, rc) := xo_printf x0
      (pre_nl ++ spaces (xo_indent_spaces x0) ++
        '"' :: name.toList ++ '"' :: ':' :: ' ' :: '[' :: ppnOf x0)
    (xo_depth_change x1 name 1 1 { list := true }, rc)
  | _ => (xop, 0)

/-- Embedding of `xo_close_list_h`: a no-op in every style but JSON.  Note
the source computes the sink write's result into `rc` but then executes
`return 0`, discarding it. -/
def xo_close_list_h (xop : xo_handle_t) (name : String) : xo_handle_t × Int :=
  match xop.xo_style with
  | .json =>
    let pre_nl : List Char :=
      if (xop.xo_stack xop.xo_depth.toNat).xs_notFirst then
        (if xop.xo_flags.pretty then ['\n'] else [])
      else []
    let x0 := markNotFirst xop
    let x1 := xo_depth_change x0 name (-1) (-1) { list := true }
    let (x2, _rc) := xo_printf x1
      (pre_nl ++ spaces (xo_indent_spaces x1) ++ [']'])
    (markNotFirst x2, 0)
  | _ => (xop, 0)

/-- Embedding of `xo_open_instance_h`.  In JSON the instance is unnamed (the
enclosing list owns the name); the pushed frame's flags are 0 (the source
does not pass `XSF_INSTANCE` here). -/
def xo_open_instance_h (xop : xo_handle_t) (name : String) : xo_handle_t × Int :=
  match xop.xo_style with
  | .xml =>
    let (x1, rc) := xo_printf xop
      (spaces (xo_indent_spaces xop) ++ '<' :: name.toList ++ ['>'] ++ ppnOf xop)
    (xo_depth_change x1 name 1 1 {}, rc)
  | .json =>
    let pre_nl : List Char :=
      if (xop.xo_stack xop.xo_depth.toNat).xs_notFirst then jsonSep xop else []
    let x0 := markNotFirst xop
    let (x1, rc) := xo_printf x0
      (pre_nl ++ spaces (xo_indent_spaces x0) ++ lbrace :: ppnOf x0)
    (xo_depth_change x1 name 1 1 {}, rc)
  | .html =>
    (xo_depth_change xop name 1 0 {}, 0)
  | .text =>
    (xo_depth_change xop name 1 0 {}, 0)

/-- Embedding of `xo_close_instance_h`. -/
def xo_close_instance_h (xop : xo_handle_t) (name : String) : xo_handle_t × Int :=
  match xop.xo_style with
  | .xml =>
    let x1 := xo_depth_change xop name (-1) (-1) {}
    xo_printf x1
      (spaces (xo_indent_spaces x1) ++ '<' :: '/' :: name.toList ++ ['>'] ++ ppnOf x1)
  | .json =>
    let pre_nl : List Char := if xop.xo_flags.pretty then ['\n'] else []
    let x1 := xo_depth_change xop name (-1) (-1) {}
    let (x2, rc) := xo_printf x1
      (pre_nl ++ spaces (xo_indent_spaces x1) ++ [rbrace])
    (markNotFirst x2, rc)
  | .html =>
    (xo_depth_change xop name (-1) 0 {}, 0)
  | .text =>
    (xo_depth_change xop name (-1) 0 {}, 0)

/-!
## Style renderers (append into the format-work buffer `xo_fmt`)
-/

/-- Append to the format-work buffer (an `xo_buf_append` on `xo_fmt`, with
the allocation modelled as succeeding). -/
def fmtAppend (xop : xo_handle_t) (s : List Char) : xo_handle_t :=
  { xop with xo_fmtbuf := xop.xo_fmtbuf ++ s }

/-- Embedding of `xo_buf_indent`: append `indent` spaces to `xo_fmt`, where a
non-positive `indent` argument means `xo_indent(xop)`. -/
def xo_buf_indent (xop : xo_handle_t) (indent : Int) : xo_handle_t :=
  let n : Nat := if indent ≤ 0 then xo_indent_spaces xop else indent.toNat
  fmtAppend xop (spaces n)

/-- Embedding of `xo_line_ensure_open`: in HTML style, when no line div is
open, open one (`<div class="line">`) and set `XOF_DIV_OPEN`. -/
def xo_line_ensure_open (xop : xo_handle_t) : xo_handle_t :=
  if xop.xo_divOpen then xop
  else if xop.xo_style ≠ .html then xop
  else
    let x1 := { xop with xo_divOpen := true }
    let x2 := fmtAppend x1 "<div class=\"line\">".toList
    if x2.xo_flags.pretty then fmtAppend x2 ['\n'] else x2

/-- Embedding of `xo_line_close`: in HTML close the current line div (opening
one first if none is open); in text append a newline. -/
def xo_line_close (xop : xo_handle_t) : xo_handle_t :=
  match xop.xo_style with
  | .html =>
    let x1 := if ¬ xop.xo_divOpen then xo_line_ensure_open xop else xop
    let x2 := { x1 with xo_divOpen := false }
    let x3 := fmtAppend x2 "</div>".toList
    if x3.xo_flags.pretty then fmtAppend x3 ['\n'] else x3
  | .text => fmtAppend xop ['\n']
  | _ => xop

/-- Embedding of `xo_buf_append_escaped` — the source appends the bytes
verbatim (escaping is an acknowledged gap there). -/
def xo_buf_append_escaped (xop : xo_handle_t) (s : List Char) : xo_handle_t :=
  fmtAppend xop s

/-- Embedding of `xo_info_find`: `bsearch` by name over the (sorted) info
table, modelled as the first exact-name match. -/
def xo_info_find (xop : xo_handle_t) (name : List Char) : Option xo_info_t :=
  xop.xo_info.find? (fun xip => xip.xi_name.toList = name)

/-- The XPath breadcrumb of `xo_buf_append_div`: `/` + name for every frame
from the root to the current depth that has a stored name. -/
def xpathOf (xop : xo_handle_t) : List Char :=
  (List.range (xop.xo_depth.toNat + 1)).foldl
    (fun acc i =>
      match (xop.xo_stack i).xs_name with
      | none => acc
      | some n => acc ++ '/' :: n.toList)
    []

/-- The `data-tag` attribute of `xo_buf_append_div` (emitted when the field
has a name). -/
def divTag (x : xo_handle_t) : Option (List Char) → xo_handle_t
  | some n => fmtAppend x ("\" data-tag=\"".toList ++ n)
  | none => x

/-- The `data-xpath` attribute of `xo_buf_append_div` (emitted when the
field has a name and `XOF_XPATH` is set). -/
def divXpath (x : xo_handle_t) : Option (List Char) → xo_handle_t
  | some n =>
    if x.xo_flags.xpath then
      fmtAppend x ("\" data-xpath=\"".toList ++ xpathOf x ++ '/' :: n)
    else x
  | none => x

/-- The `data-type`/`data-help` attributes of one found info entry. -/
def divInfoEntry (x : xo_handle_t) (xip : xo_info_t) : xo_handle_t :=
  let xa :=
    match xip.xi_type with
    | some t => xo_buf_append_escaped (fmtAppend x "\" data-type=\"".toList) t.toList
    | none => x
  match xip.xi_help with
  | some hstr => xo_buf_append_escaped (fmtAppend xa "\" data-help=\"".toList) hstr.toList
  | none => xa

/-- The info-table attributes of `xo_buf_append_div` (emitted when the field
has a name, `XOF_INFO` is set, and the info table is installed and has the
name). -/
def divInfo (x : xo_handle_t) : Option (List Char) → xo_handle_t
  | some n =>
    if x.xo_flags.info then
      match xo_info_find x n with
      | some xip => divInfoEntry x xip
      | none => x
    else x
  | none => x

/-- Embedding of `xo_buf_append_div`: `<div class="CLASS"` with optional
`data-tag`, `data-xpath` (when `XOF_XPATH`), `data-type`/`data-help` (when
`XOF_INFO` and the info table has the name), then `>VALUE</div>`. -/
def xo_buf_append_div (xop : xo_handle_t) (cls : List Char)
    (name : Option (List Char)) (value : List Char) : xo_handle_t :=
  let x1 := xo_line_ensure_open xop
  let x2 := if x1.xo_flags.pretty then xo_buf_indent x1 (x1.xo_indent_by : Int) else x1
  let x3 := fmtAppend x2 ("<div class=\"".toList ++ cls)
  let x6 := divInfo (divXpath (divTag x3 name) name) name
  let x7 := xo_buf_append_escaped (fmtAppend x6 "\">".toList) value
  let x8 := fmtAppend x7 "</div>".toList
  if x8.xo_flags.pretty then fmtAppend x8 ['\n'] else x8

/-- Embedding of `xo_format_text`: literal text is appended verbatim in text
style, becomes a `text` div in HTML, and renders nothing in XML/JSON. -/
def xo_format_text (xop : xo_handle_t) (s : List Char) : xo_handle_t :=
  match xop.xo_style with
  | .text => fmtAppend xop s
  | .html => xo_buf_append_div xop "text".toList none s
  | _ => xop

/-- Embedding of `xo_format_label`. -/
def xo_format_label (xop : xo_handle_t) (s : List Char) : xo_handle_t :=
  match xop.xo_style with
  | .text => fmtAppend xop s
  | .html => xo_buf_append_div xop "label".toList none s
  | _ => xop

/-- Model of one `snprintf(buf, left, fmt, str)` call with a single string
argument, on the only format this development needs to evaluate: the plain
`%s` conversion.  Other formats are outside the modelled domain (`none`). -/
def snprintf1 (fmt : List Char) (s : List Char) : Option (List Char) :=
  if fmt = ['%', 's'] then some s else none

/-- Emission errors of the modelled emitter: `oobRead` marks a scan that the
C code continues past the format string's terminating NUL (an out-of-bounds
read), `unmodeledFormat` marks a printf conversion outside `snprintf1`'s
domain. -/
inductive EmitErr where
  | oobRead
  | unmodeledFormat
deriving DecidableEq, Repr

/-- Embedding of `xo_format_title`: nothing outside text/HTML; otherwise the
content is `snprintf`-formatted through the print-fmt into the buffer, with
the HTML title div wrapped around it. -/
def xo_format_title (xop : xo_handle_t) (content : List Char)
    (fmt : List Char) : Except EmitErr xo_handle_t :=
  match xop.xo_style with
  | .text =>
    match snprintf1 fmt content with
    | some r => .ok (fmtAppend xop r)
    | none => .error .unmodeledFormat
  | .html =>
    let x1 := xo_line_ensure_open xop
    let x2 := if x1.xo_flags.pretty then xo_buf_indent x1 (x1.xo_indent_by : Int) else x1
    let x3 := fmtAppend x2 "<div class=\"title\">".toList
    match snprintf1 fmt content with
    | some r =>
      let x4 := fmtAppend x3 r
      let x5 := fmtAppend x4 "</div>".toList
      .ok (if x5.xo_flags.pretty then fmtAppend x5 ['\n'] else x5)
    | none => .error .unmodeledFormat
  | _ => .ok xop

/-- Embedding of `xo_format_prep`: if the current frame is already
`XSF_NOT_FIRST`, append the `,` separator (plus a newline when pretty);
otherwise mark the frame `XSF_NOT_FIRST`. -/
def xo_format_prep (xop : xo_handle_t) : xo_handle_t :=
  if (xop.xo_stack xop.xo_depth.toNat).xs_notFirst then
    fmtAppend xop (',' :: (if xop.xo_flags.pretty then ['\n'] else []))
  else
    markNotFirst xop

/-- Embedding of `xo_format_value`.  `name` is the field content (`NULL`
when the brace field has no content), `format` the print-fmt, `encoding` the
encode-fmt; XML and JSON substitute the encode-fmt for the print-fmt when it
is present.  The JSON branch decides quoting: `XFF_QUOTE` forces quotes,
else `XFF_NOQUOTE` forces none, else quote exactly when the chosen format's
last character is `s`. -/
def xo_format_value (xop : xo_handle_t) (name : Option (List Char))
    (format : List Char) (encoding : Option (List Char))
    (fl : XoFieldFlags) : xo_handle_t :=
  match xop.xo_style with
  | .text => fmtAppend xop format
  | .html => xo_buf_append_div xop "data".toList name format
  | .xml =>
    let fmt2 := encoding.getD format
    let nm := name.getD []
    let x1 := if xop.xo_flags.pretty then xo_buf_indent xop (-1) else xop
    let x2 := fmtAppend x1 ('<' :: nm ++ ['>'])
    let x3 := fmtAppend x2 fmt2
    let x4 := fmtAppend x3 ('<' :: '/' :: nm ++ ['>'])
    if x4.xo_flags.pretty then fmtAppend x4 ['\n'] else x4
  | .json =>
    let fmt2 := encoding.getD format
    let nm := name.getD []
    let x1 := xo_format_prep xop
    let quote : Bool :=
      if fl.quote then true
      else if fl.noquote then false
      else fmt2.getLast? = some 's'
    let x2 := if x1.xo_flags.pretty then xo_buf_indent x1 (-1) else x1
    let x3 := fmtAppend x2 ('"' :: nm ++ ['"', ':'])
    let x4 := if x3.xo_flags.pretty then fmtAppend x3 [' '] else x3
    let x5 := if quote then fmtAppend x4 ['"'] else x4
    let x6 := fmtAppend x5 fmt2
    if quote then fmtAppend x6 ['"'] else x6

/-- Embedding of `xo_format_decoration`. -/
def xo_format_decoration (xop : xo_handle_t) (s : List Char) : xo_handle_t :=
  match xop.xo_style with
  | .text => fmtAppend xop s
  | .html => xo_buf_append_div xop "decoration".toList none s
  | _ => xop

/-- Embedding of `xo_format_padding`. -/
def xo_format_padding (xop : xo_handle_t) (s : List Char) : xo_handle_t :=
  match xop.xo_style with
  | .text => fmtAppend xop s
  | .html => xo_buf_append_div xop "padding".toList none s
  | _ => xop

/-!
## The emission driver (`xo_emit_hv`)
-/

/-- The style letter and field flags accumulated by the modifier scan. -/
structure ModResult where
  mstyle : Option Char := none
  mflags : XoFieldFlags := {}
  mwarns : List XoWarning := []
deriving Repr

/-- Embedding of the modifier loop of `xo_emit_hv`:
`for (sp = basep; sp; sp++)` — the loop condition is the *pointer* `sp`, not
`*sp`, so the loop leaves the scan only on `:`/`/`/`}`.  The input list holds
the bytes of the format string from `basep` up to (excluding) the
terminating NUL; if no terminator byte occurs among them, the C loop treats
the NUL as an unknown modifier and keeps reading past the end of the string —
represented by `none`.  Otherwise `some (i, r)` gives the terminator's index
and the accumulated style letter, field flags and warnings. -/
def modScan (warnOn : Bool) (fmt : String) :
    List Char → ModResult → Option (Nat × ModResult)
  | [], _ => none
  | c :: rest, r =>
    if c = ':' ∨ c = '/' ∨ c = rbrace then
      some (0, r)
    else
      let r' : ModResult :=
        if c = 'D' ∨ c = 'L' ∨ c = 'P' ∨ c = 'T' ∨ c = 'V' then
          { r with
            mstyle := some c,
            mwarns := r.mwarns ++
              (if warnOn ∧ r.mstyle.isSome then [.multipleStyles fmt] else []) }
        else if c = 'C' then { r with mflags := { r.mflags with colon := true } }
        else if c = 'H' then { r with mflags := { r.mflags with hide := true } }
        else if c = 'N' then { r with mflags := { r.mflags with noquote := true } }
        else if c = 'Q' then { r with mflags := { r.mflags with quote := true } }
        else if c = 'W' then { r with mflags := { r.mflags with ws := true } }
        else
          { r with mwarns := r.mwarns ++ (if warnOn then [.unknownModifier fmt] else []) }
      (modScan warnOn fmt rest r').map (fun p => (p.1 + 1, p.2))

/-- The three parsed segments of a brace field. -/
structure ParsedField where
  pstyle : Option Char
  pflags : XoFieldFlags
  content : Option (List Char)
  format : List Char
  encoding : Option (List Char)
deriving DecidableEq, Repr

/-- Embedding of the brace-field parsing block of `xo_emit_hv`, operating on
the bytes after the opening `{` (`basep`).  Returns the number of consumed
bytes (the `cp += sp - basep + 1` advance, minus the `{` itself), the parsed
field, and the warnings of the modifier scan; `none` when the modifier scan
runs past the terminating NUL. -/
def parseField (warnOn : Bool) (fmt : String) (basep : List Char) :
    Option (Nat × ParsedField × List XoWarning) :=
  match modScan warnOn fmt basep {} with
  | none => none
  | some (i, r) =>
    let s1 := basep.drop i
    let (content, j) :=
      if s1.head? = some ':' then
        let seg := (s1.drop 1).takeWhile (fun c => ¬ (c = rbrace ∨ c = '/'))
        ((if seg = [] then none else some seg), 1 + seg.length)
      else (none, 0)
    let s2 := s1.drop j
    let (format, k) :=
      if s2.head? = some '/' then
        let seg := (s2.drop 1).takeWhile (fun c => ¬ (c = rbrace ∨ c = '/'))
        ((if seg = [] then none else some seg), 1 + seg.length)
      else (none, 0)
    let s3 := s2.drop k
    let (encoding, m) :=
      if s3.head? = some '/' then
        let seg := (s3.drop 1).takeWhile (fun c => ¬ (c = rbrace))
        ((if seg = [] then none else some seg), 1 + seg.length)
      else (none, 0)
    let s4 := s3.drop m
    let fin := if s4.head? = some rbrace then 1 else 0
    let format := format.getD ['%', 's']
    some (i + j + k + m + fin,
      { pstyle := r.mstyle, pflags := r.mflags, content := content,
        format := format, encoding := encoding },
      r.mwarns)

/-- Dispatch of a parsed field to the style renderers, exactly as the chain
of `if`s after the parsing block: `T` title, `L` label, no letter or `V`
value, `D` decoration, `P` padding; then the `C` and `W` flags append a `:`
decoration and a blank padding. -/
def renderField (xop : xo_handle_t) (pf : ParsedField) : Except EmitErr xo_handle_t :=
  let cont := pf.content.getD []
  let step1 : Except EmitErr xo_handle_t :=
    if pf.pstyle = some 'T' then
      xo_format_title xop cont pf.format
    else if pf.pstyle = some 'L' then
      .ok (xo_format_label xop cont)
    else if pf.pstyle = none ∨ pf.pstyle = some 'V' then
      .ok (xo_format_value xop pf.content pf.format pf.encoding pf.pflags)
    else if pf.pstyle = some 'D' then
      .ok (xo_format_decoration xop cont)
    else if pf.pstyle = some 'P' then
      .ok (xo_format_padding xop cont)
    else
      .ok xop
  match step1 with
  | .error e => .error e
  | .ok x1 =>
    let x2 := if pf.pflags.colon then xo_format_decoration x1 [':'] else x1
    .ok (if pf.pflags.ws then xo_format_padding x2 [' '] else x2)

/-- The scan of `{{escaped braces}}`: index of the first `}}` in the bytes
after the two opening braces, or the byte count when there is none (the C
loop stops at the NUL then). -/
def escScan : List Char → Nat
  | [] => 0
  | a :: rest =>
    if a = rbrace ∧ rest.head? = some rbrace then 0 else 1 + escScan rest

/-- Embedding of the span walk of `xo_emit_hv` (steps 1–3 of the driver): a
`\n` closes the HTML line div / emits a text newline; `{{...}}` emits its
inner bytes as literal text (note the source's `cp = *sp ? sp + 1 : sp`,
which skips the byte *after* the closing `}}`); any other `{` starts a brace
field; anything else is a literal run up to the next `{` or `\n`.

The formatter hook (`xo_formatter`) is modelled as not installed (`NULL`);
no claim exercises it. -/
def xo_emit_walk (xop : xo_handle_t) (fmt : String) :
    List Char → Except EmitErr xo_handle_t
  | [] => .ok xop
  | c :: rest =>
    if c = '\n' then
      xo_emit_walk (xo_line_close xop) fmt rest
    else if c = lbrace then
      if rest.head? = some lbrace then
        let rest2 := rest.drop 1
        let n := escScan rest2
        let x1 := xo_format_text xop (rest2.take n)
        if rest.drop (n + 3) = [] then xo_emit_walk x1 fmt []
        else xo_emit_walk x1 fmt (rest.drop (n + 4))
      else
        match parseField xop.xo_flags.warn fmt rest with
        | none => .error .oobRead
        | some (consumed, pf, ws) =>
          let x1 := { xop with xo_warnings := xop.xo_warnings ++ ws }
          match renderField x1 pf with
          | .error e => .error e
          | .ok x2 => xo_emit_walk x2 fmt (rest.drop consumed)
    else
      let run := (c :: rest).takeWhile (fun d => ¬ (d = lbrace ∨ d = '\n'))
      let x1 := xo_format_text xop run
      xo_emit_walk x1 fmt (rest.drop (run.length - 1))
termination_by l => l.length
decreasing_by
  all_goals simp [List.length_drop]
  all_goals omega

/-- Embedding of `xo_emit_hv` (and thus of `xo_emit`/`xo_emit_h`, which
merely forward): walk the format string, then run the single
`vsnprintf`-style substitution pass — modelled by `subst`, the behaviour of
`vsnprintf` on this call's `va_list` — over the accumulated format-work
buffer into the data buffer (growth modelled as succeeding), reset the
format-work buffer, hand the data buffer to the write callback, and return
`rc`, the substitution's byte count.  The write callback's return value is
discarded. -/
def xo_emit_hv (xop : xo_handle_t) (fmt : String)
    (subst : List Char → List Char) : Except EmitErr (xo_handle_t × Int) :=
  (xo_emit_walk xop fmt fmt.toList).map fun x1 =>
    let data := subst x1.xo_fmtbuf
    ({ x1 with xo_fmtbuf := [], xo_out := x1.xo_out ++ [data] },
      (data.length : Int))

/-!
## Sequences of API calls

`XoOp` is one call of the structural/emission API; `xoStep`/`xoRun` execute
them on a handle.  `emitV name format` is an `xo_emit` whose format string
is the single value field `{:name/format}`: its effect is the
`xo_format_value` rendering followed by the substitution-and-write phase
(`emitFlush`); `emit_single_field_bridge` below checks this agrees with
`xo_emit_hv` on the assembled format string.
-/

/-- One structural or emission call. -/
inductive XoOp where
  | opC (name : String)
  | clC (name : String)
  | opL (name : String)
  | clL (name : String)
  | opI (name : String)
  | clI (name : String)
  | emitV (name : String) (format : String)
deriving DecidableEq, Repr

/-- The write phase of an emission: the substitution pass (modelled as the
identity, the comma/quote structure being what the claims inspect) moves the
format-work buffer to the data buffer, which is written to the sink. -/
def emitFlush (xop : xo_handle_t) : xo_handle_t :=
  { xop with xo_fmtbuf := [], xo_out := xop.xo_out ++ [xop.xo_fmtbuf] }

/-- Execute one call. -/
def xoStep (xop : xo_handle_t) : XoOp → xo_handle_t
  | .opC n => (xo_open_container_h xop n).1
  | .clC n => (xo_close_container_h xop n).1
  | .opL n => (xo_open_list_h xop n).1
  | .clL n => (xo_close_list_h xop n).1
  | .opI n => (xo_open_instance_h xop n).1
  | .clI n => (xo_close_instance_h xop n).1
  | .emitV n f => emitFlush (xo_format_value xop (some n.toList) f.toList none {})

/-- Execute a sequence of calls. -/
def xoRun (xop : xo_handle_t) : List XoOp → xo_handle_t
  | [] => xop
  | o :: rest => xoRun (xoStep xop o) rest

/-- Is the call a `close-*`? -/
def isClose : XoOp → Bool
  | .clC _ => true
  | .clL _ => true
  | .clI _ => true
  | _ => false

/-- Does the call produce a child of the current frame (in JSON terms)?
`open_container`, `open_list`, `open_instance`, and a value-emitting emit. -/
def producesChild : XoOp → Bool
  | .opC _ => true
  | .opL _ => true
  | .opI _ => true
  | .emitV _ _ => true
  | _ => false

/-- A sequence never pops at depth 0 when run from `xop` (every `close-*` is
matched by an earlier `open-*`, i.e. the trace is a prefix of a well-nested
sequence). -/
def noUnderflowB (xop : xo_handle_t) : List XoOp → Bool
  | [] => true
  | o :: rest =>
    (!isClose o || decide (0 < xop.xo_depth)) && noUnderflowB (xoStep xop o) rest

/-- Ghost child counter for the comma/NotFirst claim: `ch i` is the number
of child-producing operations completed on the live frame at depth `i`.
An `open-*` adds a child to the current frame and resets the counter of the
new frame; a value emit adds a child to the current frame; a `close-*`
changes no counter. -/
def childStep (xop : xo_handle_t) (ch : Nat → Nat) : XoOp → (Nat → Nat)
  | .opC _ => fun j =>
    if j = xop.xo_depth.toNat then ch j + 1
    else if j = xop.xo_depth.toNat + 1 then 0 else ch j
  | .opL _ => fun j =>
    if j = xop.xo_depth.toNat then ch j + 1
    else if j = xop.xo_depth.toNat + 1 then 0 else ch j
  | .opI _ => fun j =>
    if j = xop.xo_depth.toNat then ch j + 1
    else if j = xop.xo_depth.toNat + 1 then 0 else ch j
  | .emitV _ _ => fun j =>
    if j = xop.xo_depth.toNat then ch j + 1 else ch j
  | _ => ch

/-- Run the ghost child counters along a sequence. -/
def chRun (xop : xo_handle_t) (ch : Nat → Nat) : List XoOp → (Nat → Nat)
  | [] => ch
  | o :: rest => chRun (xoStep xop o) (childStep xop ch o) rest

/-!
## The handle as raw bytes (`xo_destroy` of the default handle)

`xo_destroy` executes `bzero(&xo_default_handle, sizeof(&xo_default_handle))`.
The operand of `sizeof` is a *pointer to* the handle, so on an LP64 platform
8 bytes are cleared — exactly the four leading `unsigned short` fields
(`xo_style`, `xo_flags`, `xo_indent`, `xo_indent_by`); every later field
(callback pointers, the two buffers' pointers, the freed stack pointer, the
depth, the info table) keeps its bytes.  `xo_handle_rec` views the handle at
this byte level: pointer-valued fields are their addresses. -/
structure xo_handle_rec where
  r_style : Nat
  r_flags : Nat
  r_indent : Nat
  r_indent_by : Nat
  r_write : Nat
  r_close : Nat
  r_formatter : Nat
  r_opaque : Nat
  r_fp : Nat
  r_data_bufp : Nat
  r_fmt_bufp : Nat
  r_stack : Nat
  r_depth : Int
  r_stack_size : Nat
  r_info : Nat
  r_info_count : Int
deriving DecidableEq, Repr

/-- Embedding of `xo_destroy` applied to the process-default handle: free
the stack and the two buffers (their pointer fields keep their — now
dangling — values), `bzero` the first `sizeof(xo_handle_t *)` = 8 bytes of
the record (the four `unsigned short`s), and clear `xo_default_inited`
(the returned `Bool`). -/
def xo_destroy_default (x : xo_handle_rec) : xo_handle_rec × Bool :=
  ({ x with r_style := 0, r_flags := 0, r_indent := 0, r_indent_by := 0 },
    false)

/-!
## Field-projection lemmas
-/

section Projections

variable (x : xo_handle_t) (s : List Char)

@[simp] theorem fmtAppend_style : (fmtAppend x s).xo_style = x.xo_style := rfl
@[simp] theorem fmtAppend_flags : (fmtAppend x s).xo_flags = x.xo_flags := rfl
@[simp] theorem fmtAppend_depth : (fmtAppend x s).xo_depth = x.xo_depth := rfl
@[simp] theorem fmtAppend_indent : (fmtAppend x s).xo_indent = x.xo_indent := rfl
@[simp] theorem fmtAppend_indent_by : (fmtAppend x s).xo_indent_by = x.xo_indent_by := rfl
@[simp] theorem fmtAppend_stack : (fmtAppend x s).xo_stack = x.xo_stack := rfl
@[simp] theorem fmtAppend_info : (fmtAppend x s).xo_info = x.xo_info := rfl
@[simp] theorem fmtAppend_out : (fmtAppend x s).xo_out = x.xo_out := rfl
@[simp] theorem fmtAppend_warnings : (fmtAppend x s).xo_warnings = x.xo_warnings := rfl
@[simp] theorem fmtAppend_sink : (fmtAppend x s).xo_sink = x.xo_sink := rfl
@[simp] theorem fmtAppend_fmtbuf : (fmtAppend x s).xo_fmtbuf = x.xo_fmtbuf ++ s := rfl

@[simp] theorem markNotFirst_style : (markNotFirst x).xo_style = x.xo_style := rfl
@[simp] theorem markNotFirst_flags : (markNotFirst x).xo_flags = x.xo_flags := rfl
@[simp] theorem markNotFirst_depth : (markNotFirst x).xo_depth = x.xo_depth := rfl
@[simp] theorem markNotFirst_indent : (markNotFirst x).xo_indent = x.xo_indent := rfl
@[simp] theorem markNotFirst_indent_by : (markNotFirst x).xo_indent_by = x.xo_indent_by := rfl
@[simp] theorem markNotFirst_out : (markNotFirst x).xo_out = x.xo_out := rfl
@[simp] theorem markNotFirst_warnings : (markNotFirst x).xo_warnings = x.xo_warnings := rfl
@[simp] theorem markNotFirst_fmtbuf : (markNotFirst x).xo_fmtbuf = x.xo_fmtbuf := rfl
@[simp] theorem markNotFirst_sink : (markNotFirst x).xo_sink = x.xo_sink := rfl
@[simp] theorem markNotFirst_divOpen : (markNotFirst x).xo_divOpen = x.xo_divOpen := rfl

theorem markNotFirst_stack (j : Nat) :
    (markNotFirst x).xo_stack j =
      if j = x.xo_depth.toNat then
        { x.xo_stack x.xo_depth.toNat with xs_notFirst := true }
      else x.xo_stack j := by
  simp [markNotFirst, stackUpd]

@[simp] theorem xo_printf_fst_style : (xo_printf x s).1.xo_style = x.xo_style := rfl
@[simp] theorem xo_printf_fst_flags : (xo_printf x s).1.xo_flags = x.xo_flags := rfl
@[simp] theorem xo_printf_fst_depth : (xo_printf x s).1.xo_depth = x.xo_depth := rfl
@[simp] theorem xo_printf_fst_indent : (xo_printf x s).1.xo_indent = x.xo_indent := rfl
@[simp] theorem xo_printf_fst_indent_by :
    (xo_printf x s).1.xo_indent_by = x.xo_indent_by := rfl
@[simp] theorem xo_printf_fst_stack : (xo_printf x s).1.xo_stack = x.xo_stack := rfl
@[simp] theorem xo_printf_fst_fmtbuf : (xo_printf x s).1.xo_fmtbuf = x.xo_fmtbuf := rfl
@[simp] theorem xo_printf_fst_warnings :
    (xo_printf x s).1.xo_warnings = x.xo_warnings := rfl
@[simp] theorem xo_printf_fst_sink : (xo_printf x s).1.xo_sink = x.xo_sink := rfl
@[simp] theorem xo_printf_fst_out : (xo_printf x s).1.xo_out = x.xo_out ++ [s] := rfl
@[simp] theorem xo_printf_snd : (xo_printf x s).2 = x.xo_sink s := rfl

@[simp] theorem emitFlush_style : (emitFlush x).xo_style = x.xo_style := rfl
@[simp] theorem emitFlush_flags : (emitFlush x).xo_flags = x.xo_flags := rfl
@[simp] theorem emitFlush_depth : (emitFlush x).xo_depth = x.xo_depth := rfl
@[simp] theorem emitFlush_indent : (emitFlush x).xo_indent = x.xo_indent := rfl
@[simp] theorem emitFlush_stack : (emitFlush x).xo_stack = x.xo_stack := rfl
@[simp] theorem emitFlush_fmtbuf : (emitFlush x).xo_fmtbuf = [] := rfl
@[simp] theorem emitFlush_out : (emitFlush x).xo_out = x.xo_out ++ [x.xo_fmtbuf] := rfl
@[simp] theorem emitFlush_warnings : (emitFlush x).xo_warnings = x.xo_warnings := rfl
@[simp] theorem emitFlush_sink : (emitFlush x).xo_sink = x.xo_sink := rfl

end Projections

section BufIndentProj

variable (x : xo_handle_t) (i : Int)

@[simp] theorem xo_buf_indent_style : (xo_buf_indent x i).xo_style = x.xo_style := rfl
@[simp] theorem xo_buf_indent_flags : (xo_buf_indent x i).xo_flags = x.xo_flags := rfl
@[simp] theorem xo_buf_indent_depth : (xo_buf_indent x i).xo_depth = x.xo_depth := rfl
@[simp] theorem xo_buf_indent_indent : (xo_buf_indent x i).xo_indent = x.xo_indent := rfl
@[simp] theorem xo_buf_indent_stack : (xo_buf_indent x i).xo_stack = x.xo_stack := rfl
@[simp] theorem xo_buf_indent_out : (xo_buf_indent x i).xo_out = x.xo_out := rfl
@[simp] theorem xo_buf_indent_warnings :
    (xo_buf_indent x i).xo_warnings = x.xo_warnings := rfl
@[simp] theorem xo_buf_indent_sink : (xo_buf_indent x i).xo_sink = x.xo_sink := rfl

end BufIndentProj

section LineProj

variable (x : xo_handle_t)

@[simp] theorem xo_line_ensure_open_style :
    (xo_line_ensure_open x).xo_style = x.xo_style := by
  unfold xo_line_ensure_open; (try dsimp only); split_ifs <;> simp

@[simp] theorem xo_line_ensure_open_flags :
    (xo_line_ensure_open x).xo_flags = x.xo_flags := by
  unfold xo_line_ensure_open; (try dsimp only); split_ifs <;> simp

@[simp] theorem xo_line_ensure_open_depth :
    (xo_line_ensure_open x).xo_depth = x.xo_depth := by
  unfold xo_line_ensure_open; (try dsimp only); split_ifs <;> simp

@[simp] theorem xo_line_ensure_open_indent :
    (xo_line_ensure_open x).xo_indent = x.xo_indent := by
  unfold xo_line_ensure_open; (try dsimp only); split_ifs <;> simp

@[simp] theorem xo_line_ensure_open_indent_by :
    (xo_line_ensure_open x).xo_indent_by = x.xo_indent_by := by
  unfold xo_line_ensure_open; (try dsimp only); split_ifs <;> simp

@[simp] theorem xo_line_ensure_open_stack :
    (xo_line_ensure_open x).xo_stack = x.xo_stack := by
  unfold xo_line_ensure_open; (try dsimp only); split_ifs <;> simp

@[simp] theorem xo_line_ensure_open_info :
    (xo_line_ensure_open x).xo_info = x.xo_info := by
  unfold xo_line_ensure_open; (try dsimp only); split_ifs <;> simp

@[simp] theorem xo_line_ensure_open_out :
    (xo_line_ensure_open x).xo_out = x.xo_out := by
  unfold xo_line_ensure_open; (try dsimp only); split_ifs <;> simp

@[simp] theorem xo_line_ensure_open_warnings :
    (xo_line_ensure_open x).xo_warnings = x.xo_warnings := by
  unfold xo_line_ensure_open; (try dsimp only); split_ifs <;> simp

@[simp] theorem xo_line_ensure_open_sink :
    (xo_line_ensure_open x).xo_sink = x.xo_sink := by
  unfold xo_line_ensure_open; (try dsimp only); split_ifs <;> simp

@[simp] theorem xo_line_close_style : (xo_line_close x).xo_style = x.xo_style := by
  unfold xo_line_close; split
  all_goals (try dsimp only)
  all_goals (try split_ifs)
  all_goals simp

@[simp] theorem xo_line_close_depth : (xo_line_close x).xo_depth = x.xo_depth := by
  unfold xo_line_close; split
  all_goals (try dsimp only)
  all_goals (try split_ifs)
  all_goals simp

@[simp] theorem xo_line_close_stack : (xo_line_close x).xo_stack = x.xo_stack := by
  unfold xo_line_close; split
  all_goals (try dsimp only)
  all_goals (try split_ifs)
  all_goals simp

@[simp] theorem xo_line_close_out : (xo_line_close x).xo_out = x.xo_out := by
  unfold xo_line_close; split
  all_goals (try dsimp only)
  all_goals (try split_ifs)
  all_goals simp

@[simp] theorem xo_line_close_sink : (xo_line_close x).xo_sink = x.xo_sink := by
  unfold xo_line_close; split
  all_goals (try dsimp only)
  all_goals (try split_ifs)
  all_goals simp

end LineProj

section DivProj

variable (x : xo_handle_t) (cls : List Char) (n : Option (List Char)) (v : List Char)
variable (xip : xo_info_t)

@[simp] theorem divTag_style : (divTag x n).xo_style = x.xo_style := by
  cases n <;> simp [divTag]
@[simp] theorem divTag_flags : (divTag x n).xo_flags = x.xo_flags := by
  cases n <;> simp [divTag]
@[simp] theorem divTag_depth : (divTag x n).xo_depth = x.xo_depth := by
  cases n <;> simp [divTag]
@[simp] theorem divTag_stack : (divTag x n).xo_stack = x.xo_stack := by
  cases n <;> simp [divTag]
@[simp] theorem divTag_info : (divTag x n).xo_info = x.xo_info := by
  cases n <;> simp [divTag]
@[simp] theorem divTag_out : (divTag x n).xo_out = x.xo_out := by
  cases n <;> simp [divTag]
@[simp] theorem divTag_warnings : (divTag x n).xo_warnings = x.xo_warnings := by
  cases n <;> simp [divTag]
@[simp] theorem divTag_sink : (divTag x n).xo_sink = x.xo_sink := by
  cases n <;> simp [divTag]

@[simp] theorem divXpath_style : (divXpath x n).xo_style = x.xo_style := by
  cases n <;> simp [divXpath] <;> split_ifs <;> simp
@[simp] theorem divXpath_flags : (divXpath x n).xo_flags = x.xo_flags := by
  cases n <;> simp [divXpath] <;> split_ifs <;> simp
@[simp] theorem divXpath_depth : (divXpath x n).xo_depth = x.xo_depth := by
  cases n <;> simp [divXpath] <;> split_ifs <;> simp
@[simp] theorem divXpath_stack : (divXpath x n).xo_stack = x.xo_stack := by
  cases n <;> simp [divXpath] <;> split_ifs <;> simp
@[simp] theorem divXpath_info : (divXpath x n).xo_info = x.xo_info := by
  cases n <;> simp [divXpath] <;> split_ifs <;> simp
@[simp] theorem divXpath_out : (divXpath x n).xo_out = x.xo_out := by
  cases n <;> simp [divXpath] <;> split_ifs <;> simp
@[simp] theorem divXpath_warnings : (divXpath x n).xo_warnings = x.xo_warnings := by
  cases n <;> simp [divXpath] <;> split_ifs <;> simp
@[simp] theorem divXpath_sink : (divXpath x n).xo_sink = x.xo_sink := by
  cases n <;> simp [divXpath] <;> split_ifs <;> simp

@[simp] theorem divInfoEntry_style : (divInfoEntry x xip).xo_style = x.xo_style := by
  unfold divInfoEntry xo_buf_append_escaped; repeat' split
  all_goals simp
@[simp] theorem divInfoEntry_flags : (divInfoEntry x xip).xo_flags = x.xo_flags := by
  unfold divInfoEntry xo_buf_append_escaped; repeat' split
  all_goals simp
@[simp] theorem divInfoEntry_depth : (divInfoEntry x xip).xo_depth = x.xo_depth := by
  unfold divInfoEntry xo_buf_append_escaped; repeat' split
  all_goals simp
@[simp] theorem divInfoEntry_stack : (divInfoEntry x xip).xo_stack = x.xo_stack := by
  unfold divInfoEntry xo_buf_append_escaped; repeat' split
  all_goals simp
@[simp] theorem divInfoEntry_out : (divInfoEntry x xip).xo_out = x.xo_out := by
  unfold divInfoEntry xo_buf_append_escaped; repeat' split
  all_goals simp
@[simp] theorem divInfoEntry_warnings :
    (divInfoEntry x xip).xo_warnings = x.xo_warnings := by
  unfold divInfoEntry xo_buf_append_escaped; repeat' split
  all_goals simp
@[simp] theorem divInfoEntry_sink : (divInfoEntry x xip).xo_sink = x.xo_sink := by
  unfold divInfoEntry xo_buf_append_escaped; repeat' split
  all_goals simp

@[simp] theorem divInfo_style : (divInfo x n).xo_style = x.xo_style := by
  cases n <;> simp [divInfo] <;> repeat' split
  all_goals simp
@[simp] theorem divInfo_flags : (divInfo x n).xo_flags = x.xo_flags := by
  cases n <;> simp [divInfo] <;> repeat' split
  all_goals simp
@[simp] theorem divInfo_depth : (divInfo x n).xo_depth = x.xo_depth := by
  cases n <;> simp [divInfo] <;> repeat' split
  all_goals simp
@[simp] theorem divInfo_stack : (divInfo x n).xo_stack = x.xo_stack := by
  cases n <;> simp [divInfo] <;> repeat' split
  all_goals simp
@[simp] theorem divInfo_out : (divInfo x n).xo_out = x.xo_out := by
  cases n <;> simp [divInfo] <;> repeat' split
  all_goals simp
@[simp] theorem divInfo_warnings : (divInfo x n).xo_warnings = x.xo_warnings := by
  cases n <;> simp [divInfo] <;> repeat' split
  all_goals simp
@[simp] theorem divInfo_sink : (divInfo x n).xo_sink = x.xo_sink := by
  cases n <;> simp [divInfo] <;> repeat' split
  all_goals simp

@[simp] theorem xo_buf_append_div_style :
    (xo_buf_append_div x cls n v).xo_style = x.xo_style := by
  unfold xo_buf_append_div xo_buf_append_escaped
  dsimp only
  split_ifs <;> simp

@[simp] theorem xo_buf_append_div_flags :
    (xo_buf_append_div x cls n v).xo_flags = x.xo_flags := by
  unfold xo_buf_append_div xo_buf_append_escaped
  dsimp only
  split_ifs <;> simp

@[simp] theorem xo_buf_append_div_depth :
    (xo_buf_append_div x cls n v).xo_depth = x.xo_depth := by
  unfold xo_buf_append_div xo_buf_append_escaped
  dsimp only
  split_ifs <;> simp

@[simp] theorem xo_buf_append_div_stack :
    (xo_buf_append_div x cls n v).xo_stack = x.xo_stack := by
  unfold xo_buf_append_div xo_buf_append_escaped
  dsimp only
  split_ifs <;> simp

@[simp] theorem xo_buf_append_div_out :
    (xo_buf_append_div x cls n v).xo_out = x.xo_out := by
  unfold xo_buf_append_div xo_buf_append_escaped
  dsimp only
  split_ifs <;> simp

@[simp] theorem xo_buf_append_div_warnings :
    (xo_buf_append_div x cls n v).xo_warnings = x.xo_warnings := by
  unfold xo_buf_append_div xo_buf_append_escaped
  dsimp only
  split_ifs <;> simp

@[simp] theorem xo_buf_append_div_sink :
    (xo_buf_append_div x cls n v).xo_sink = x.xo_sink := by
  unfold xo_buf_append_div xo_buf_append_escaped
  dsimp only
  split_ifs <;> simp

end DivProj

section FormatProj

variable (x : xo_handle_t) (s : List Char)
variable (nm : Option (List Char)) (f : List Char) (e : Option (List Char))
variable (fl : XoFieldFlags)

@[simp] theorem xo_format_text_style : (xo_format_text x s).xo_style = x.xo_style := by
  unfold xo_format_text; split <;> simp
@[simp] theorem xo_format_text_depth : (xo_format_text x s).xo_depth = x.xo_depth := by
  unfold xo_format_text; split <;> simp
@[simp] theorem xo_format_text_stack : (xo_format_text x s).xo_stack = x.xo_stack := by
  unfold xo_format_text; split <;> simp
@[simp] theorem xo_format_text_out : (xo_format_text x s).xo_out = x.xo_out := by
  unfold xo_format_text; split <;> simp
@[simp] theorem xo_format_text_sink : (xo_format_text x s).xo_sink = x.xo_sink := by
  unfold xo_format_text; split <;> simp

@[simp] theorem xo_format_label_style : (xo_format_label x s).xo_style = x.xo_style := by
  unfold xo_format_label; split <;> simp
@[simp] theorem xo_format_label_depth : (xo_format_label x s).xo_depth = x.xo_depth := by
  unfold xo_format_label; split <;> simp
@[simp] theorem xo_format_label_stack : (xo_format_label x s).xo_stack = x.xo_stack := by
  unfold xo_format_label; split <;> simp
@[simp] theorem xo_format_label_out : (xo_format_label x s).xo_out = x.xo_out := by
  unfold xo_format_label; split <;> simp
@[simp] theorem xo_format_label_sink : (xo_format_label x s).xo_sink = x.xo_sink := by
  unfold xo_format_label; split <;> simp

@[simp] theorem xo_format_decoration_style :
    (xo_format_decoration x s).xo_style = x.xo_style := by
  unfold xo_format_decoration; split <;> simp
@[simp] theorem xo_format_decoration_depth :
    (xo_format_decoration x s).xo_depth = x.xo_depth := by
  unfold xo_format_decoration; split <;> simp
@[simp] theorem xo_format_decoration_stack :
    (xo_format_decoration x s).xo_stack = x.xo_stack := by
  unfold xo_format_decoration; split <;> simp
@[simp] theorem xo_format_decoration_out :
    (xo_format_decoration x s).xo_out = x.xo_out := by
  unfold xo_format_decoration; split <;> simp
@[simp] theorem xo_format_decoration_sink :
    (xo_format_decoration x s).xo_sink = x.xo_sink := by
  unfold xo_format_decoration; split <;> simp

@[simp] theorem xo_format_padding_style :
    (xo_format_padding x s).xo_style = x.xo_style := by
  unfold xo_format_padding; split <;> simp
@[simp] theorem xo_format_padding_depth :
    (xo_format_padding x s).xo_depth = x.xo_depth := by
  unfold xo_format_padding; split <;> simp
@[simp] theorem xo_format_padding_stack :
    (xo_format_padding x s).xo_stack = x.xo_stack := by
  unfold xo_format_padding; split <;> simp
@[simp] theorem xo_format_padding_out :
    (xo_format_padding x s).xo_out = x.xo_out := by
  unfold xo_format_padding; split <;> simp
@[simp] theorem xo_format_padding_sink :
    (xo_format_padding x s).xo_sink = x.xo_sink := by
  unfold xo_format_padding; split <;> simp

@[simp] theorem xo_format_prep_style : (xo_format_prep x).xo_style = x.xo_style := by
  unfold xo_format_prep; split_ifs <;> simp
@[simp] theorem xo_format_prep_flags : (xo_format_prep x).xo_flags = x.xo_flags := by
  unfold xo_format_prep; split_ifs <;> simp
@[simp] theorem xo_format_prep_depth : (xo_format_prep x).xo_depth = x.xo_depth := by
  unfold xo_format_prep; split_ifs <;> simp
@[simp] theorem xo_format_prep_indent : (xo_format_prep x).xo_indent = x.xo_indent := by
  unfold xo_format_prep; split_ifs <;> simp
@[simp] theorem xo_format_prep_indent_by :
    (xo_format_prep x).xo_indent_by = x.xo_indent_by := by
  unfold xo_format_prep; split_ifs <;> simp
@[simp] theorem xo_format_prep_out : (xo_format_prep x).xo_out = x.xo_out := by
  unfold xo_format_prep; split_ifs <;> simp
@[simp] theorem xo_format_prep_warnings :
    (xo_format_prep x).xo_warnings = x.xo_warnings := by
  unfold xo_format_prep; split_ifs <;> simp
@[simp] theorem xo_format_prep_sink : (xo_format_prep x).xo_sink = x.xo_sink := by
  unfold xo_format_prep; split_ifs <;> simp

theorem xo_format_value_style :
    (xo_format_value x nm f e fl).xo_style = x.xo_style := by
  unfold xo_format_value
  split
  all_goals (try dsimp only)
  all_goals (try split_ifs)
  all_goals simp

theorem xo_format_value_depth :
    (xo_format_value x nm f e fl).xo_depth = x.xo_depth := by
  unfold xo_format_value
  split
  all_goals (try dsimp only)
  all_goals (try split_ifs)
  all_goals simp

theorem xo_format_value_out :
    (xo_format_value x nm f e fl).xo_out = x.xo_out := by
  unfold xo_format_value
  split
  all_goals (try dsimp only)
  all_goals (try split_ifs)
  all_goals simp

theorem xo_format_value_sink :
    (xo_format_value x nm f e fl).xo_sink = x.xo_sink := by
  unfold xo_format_value
  split
  all_goals (try dsimp only)
  all_goals (try split_ifs)
  all_goals simp

end FormatProj

/-!
## Characterisation of `xo_depth_change`
-/

section DepthChange

variable (xop : xo_handle_t) (name : String) (ind : Int) (fl : XsfBits)

/-- A push writes the fresh frame at `(depth + 1).toNat` and advances the
depth. -/
theorem xo_depth_change_push :
    xo_depth_change xop name 1 ind fl =
      { xop with
        xo_stack := stackUpd xop.xo_stack (xop.xo_depth + 1).toNat
          { xs_notFirst := false, xs_list := fl.list, xs_instance := fl.inst,
            xs_name :=
              if xop.xo_flags.xpath ∨ xop.xo_flags.warn then some name
              else (xop.xo_stack (xop.xo_depth + 1).toNat).xs_name },
        xo_depth := xop.xo_depth + 1,
        xo_indent := addIndent xop.xo_indent ind } := by
  unfold xo_depth_change
  rw [if_pos (by omega)]

/-- A pop at depth 0 only warns (when `XOF_WARN` is on). -/
theorem xo_depth_change_pop_zero (hd : xop.xo_depth = 0) :
    xo_depth_change xop name (-1) ind fl =
      (if xop.xo_flags.warn then
        { xop with xo_warnings := xop.xo_warnings ++ [.closeWithEmptyStack name] }
      else xop) := by
  unfold xo_depth_change
  rw [if_neg (by omega), if_pos hd]

variable (delta : Int)

@[simp] theorem xo_depth_change_style :
    (xo_depth_change xop name delta ind fl).xo_style = xop.xo_style := by
  unfold xo_depth_change; (try dsimp only); split_ifs <;> simp

@[simp] theorem xo_depth_change_flags :
    (xo_depth_change xop name delta ind fl).xo_flags = xop.xo_flags := by
  unfold xo_depth_change; (try dsimp only); split_ifs <;> simp

@[simp] theorem xo_depth_change_indent_by :
    (xo_depth_change xop name delta ind fl).xo_indent_by = xop.xo_indent_by := by
  unfold xo_depth_change; (try dsimp only); split_ifs <;> simp

@[simp] theorem xo_depth_change_out :
    (xo_depth_change xop name delta ind fl).xo_out = xop.xo_out := by
  unfold xo_depth_change; (try dsimp only); split_ifs <;> simp

@[simp] theorem xo_depth_change_fmtbuf :
    (xo_depth_change xop name delta ind fl).xo_fmtbuf = xop.xo_fmtbuf := by
  unfold xo_depth_change; (try dsimp only); split_ifs <;> simp

@[simp] theorem xo_depth_change_sink :
    (xo_depth_change xop name delta ind fl).xo_sink = xop.xo_sink := by
  unfold xo_depth_change; (try dsimp only); split_ifs <;> simp

@[simp] theorem xo_depth_change_info :
    (xo_depth_change xop name delta ind fl).xo_info = xop.xo_info := by
  unfold xo_depth_change; (try dsimp only); split_ifs <;> simp

/-- The depth after `xo_depth_change`: a push adds `delta`; a pop at depth 0
returns unchanged; a proper pop adds `delta`. -/
theorem xo_depth_change_depth :
    (xo_depth_change xop name delta ind fl).xo_depth =
      if 0 ≤ delta then xop.xo_depth + delta
      else if xop.xo_depth = 0 then xop.xo_depth
      else xop.xo_depth + delta := by
  unfold xo_depth_change; (try dsimp only); split_ifs <;> simp

/-- A proper pop: the mismatch warnings, the conditional name clearing, the
depth and indent deltas. -/
theorem xo_depth_change_pop (hd : xop.xo_depth ≠ 0) :
    xo_depth_change xop name (-1) ind fl =
      { xop with
        xo_warnings := xop.xo_warnings ++ popWarnings xop name fl,
        xo_stack :=
          if xop.xo_flags.xpath then
            stackUpd xop.xo_stack xop.xo_depth.toNat
              { xop.xo_stack xop.xo_depth.toNat with xs_name := none }
          else xop.xo_stack,
        xo_depth := xop.xo_depth + (-1),
        xo_indent := addIndent xop.xo_indent ind } := by
  unfold xo_depth_change
  rw [if_neg (by omega), if_neg hd]
  unfold popWarnings
  (try dsimp only)
  split_ifs <;> simp [*]

end DepthChange

/-!
## The effect of one JSON-style call
-/

/-- The head of spaces-then-`c`. -/
theorem head_spaces_cons (n : Nat) (c : Char) (l : List Char) :
    (spaces n ++ c :: l).head? = some (if n = 0 then c else ' ') := by
  cases n <;> simp [spaces, List.replicate_succ]

/-- The payload `xo_open_container_h` writes in JSON style. -/
def opCChunk (xop : xo_handle_t) (n : String) : List Char :=
  (if (xop.xo_stack xop.xo_depth.toNat).xs_notFirst then jsonSep xop else []) ++
    spaces (xo_indent_spaces xop) ++
    '"' :: n.toList ++ '"' :: ':' :: ' ' :: lbrace :: ppnOf xop

/-- JSON `open_container`: mark the current frame `XSF_NOT_FIRST`, write the
separator-prefixed `"name": {` payload, push a fresh frame. -/
theorem xoStep_opC_json (xop : xo_handle_t) (n : String)
    (hs : xop.xo_style = .json) (hd : 0 ≤ xop.xo_depth) :
    xoStep xop (.opC n) =
      { xop with
        xo_stack := stackUpd
          (stackUpd xop.xo_stack xop.xo_depth.toNat
            { xop.xo_stack xop.xo_depth.toNat with xs_notFirst := true })
          (xop.xo_depth.toNat + 1)
          { xs_notFirst := false, xs_list := false, xs_instance := false,
            xs_name :=
              if xop.xo_flags.xpath ∨ xop.xo_flags.warn then some n
              else (xop.xo_stack (xop.xo_depth.toNat + 1)).xs_name },
        xo_depth := xop.xo_depth + 1,
        xo_indent := addIndent xop.xo_indent 1,
        xo_out := xop.xo_out ++ [opCChunk xop n] } := by
  have h1 : (xop.xo_depth + 1).toNat = xop.xo_depth.toNat + 1 := by omega
  unfold xoStep xo_open_container_h opCChunk
  rw [hs]
  dsimp only
  rw [xo_depth_change_push]
  simp [xo_printf, markNotFirst, jsonSep, ppnOf, xo_indent_spaces, stackUpd, h1, hs]

/-- The payload `xo_open_list_h` writes in JSON style. -/
def opLChunk (xop : xo_handle_t) (n : String) : List Char :=
  (if (xop.xo_stack xop.xo_depth.toNat).xs_notFirst then jsonSep xop else []) ++
    spaces (xo_indent_spaces xop) ++
    '"' :: n.toList ++ '"' :: ':' :: ' ' :: '[' :: ppnOf xop

/-- JSON `open_list`: like `open_container` with `[` and the `XSF_LIST` bit
on the pushed frame. -/
theorem xoStep_opL_json (xop : xo_handle_t) (n : String)
    (hs : xop.xo_style = .json) (hd : 0 ≤ xop.xo_depth) :
    xoStep xop (.opL n) =
      { xop with
        xo_stack := stackUpd
          (stackUpd xop.xo_stack xop.xo_depth.toNat
            { xop.xo_stack xop.xo_depth.toNat with xs_notFirst := true })
          (xop.xo_depth.toNat + 1)
          { xs_notFirst := false, xs_list := true, xs_instance := false,
            xs_name :=
              if xop.xo_flags.xpath ∨ xop.xo_flags.warn then some n
              else (xop.xo_stack (xop.xo_depth.toNat + 1)).xs_name },
        xo_depth := xop.xo_depth + 1,
        xo_indent := addIndent xop.xo_indent 1,
        xo_out := xop.xo_out ++ [opLChunk xop n] } := by
  have h1 : (xop.xo_depth + 1).toNat = xop.xo_depth.toNat + 1 := by omega
  unfold xoStep xo_open_list_h opLChunk
  rw [hs]
  dsimp only
  rw [xo_depth_change_push]
  simp [xo_printf, markNotFirst, jsonSep, ppnOf, xo_indent_spaces, stackUpd, h1, hs]

/-- The payload `xo_open_instance_h` writes in JSON style (unnamed `{`). -/
def opIChunk (xop : xo_handle_t) : List Char :=
  (if (xop.xo_stack xop.xo_depth.toNat).xs_notFirst then jsonSep xop else []) ++
    spaces (xo_indent_spaces xop) ++ lbrace :: ppnOf xop

/-- JSON `open_instance`: separator-prefixed `{`, fresh frame with flags 0
(the source passes 0, not `XSF_INSTANCE`). -/
theorem xoStep_opI_json (xop : xo_handle_t) (n : String)
    (hs : xop.xo_style = .json) (hd : 0 ≤ xop.xo_depth) :
    xoStep xop (.opI n) =
      { xop with
        xo_stack := stackUpd
          (stackUpd xop.xo_stack xop.xo_depth.toNat
            { xop.xo_stack xop.xo_depth.toNat with xs_notFirst := true })
          (xop.xo_depth.toNat + 1)
          { xs_notFirst := false, xs_list := false, xs_instance := false,
            xs_name :=
              if xop.xo_flags.xpath ∨ xop.xo_flags.warn then some n
              else (xop.xo_stack (xop.xo_depth.toNat + 1)).xs_name },
        xo_depth := xop.xo_depth + 1,
        xo_indent := addIndent xop.xo_indent 1,
        xo_out := xop.xo_out ++ [opIChunk xop] } := by
  have h1 : (xop.xo_depth + 1).toNat = xop.xo_depth.toNat + 1 := by omega
  unfold xoStep xo_open_instance_h opIChunk
  rw [hs]
  dsimp only
  rw [xo_depth_change_push]
  simp [xo_printf, markNotFirst, jsonSep, ppnOf, xo_indent_spaces, stackUpd, h1, hs]

/-- The payload a single-value-field emit writes in JSON style (the value
field's flags are 0, so quoting is decided by the format's last character). -/
def emitVChunk (xop : xo_handle_t) (n f : String) : List Char :=
  (if (xop.xo_stack xop.xo_depth.toNat).xs_notFirst then
     ',' :: (if xop.xo_flags.pretty then ['
'] else [])
   else []) ++
  (if xop.xo_flags.pretty then spaces (xo_indent_spaces xop) else []) ++
  '"' :: n.toList ++ ['"', ':'] ++
  (if xop.xo_flags.pretty then [' '] else []) ++
  (if f.toList.getLast? = some 's' then '"' :: f.toList ++ ['"'] else f.toList)

/-- JSON single-value emit: `xo_format_prep` then the `"name":` value
rendering, flushed to the sink. -/
theorem xoStep_emitV_json (xop : xo_handle_t) (n f : String)
    (hs : xop.xo_style = .json) (hb : xop.xo_fmtbuf = []) :
    xoStep xop (.emitV n f) =
      { xop with
        xo_stack := stackUpd xop.xo_stack xop.xo_depth.toNat
          { xop.xo_stack xop.xo_depth.toNat with xs_notFirst := true },
        xo_fmtbuf := [],
        xo_out := xop.xo_out ++ [emitVChunk xop n f] } := by
  unfold xoStep xo_format_value emitVChunk
  rw [hs]
  dsimp only
  unfold xo_format_prep
  by_cases hnf : (xop.xo_stack xop.xo_depth.toNat).xs_notFirst
  · have hfr : { xop.xo_stack xop.xo_depth.toNat with xs_notFirst := true } =
        xop.xo_stack xop.xo_depth.toNat := by
      rw [← hnf]
    simp only [hnf, if_true, if_pos]
    simp [emitFlush, fmtAppend, markNotFirst, xo_buf_indent, xo_indent_spaces,
      hb, hnf, hfr]
    split_ifs <;> simp [spaces, hs]
  · simp only [hnf, if_false]
    simp [emitFlush, fmtAppend, markNotFirst, xo_buf_indent, xo_indent_spaces, hb, hnf]
    split_ifs <;> simp [spaces, hs]

/-- Lemma: `popWarnings` ignores the `XSF_NOT_FIRST` bit of the top frame. -/
theorem popWarnings_markNotFirst (xop : xo_handle_t) (n : String) (fl : XsfBits) :
    popWarnings (markNotFirst xop) n fl = popWarnings xop n fl := by
  unfold popWarnings
  simp [markNotFirst, stackUpd]

/-- JSON `close-*` at non-zero depth: the depth decreases by one. -/
theorem xoStep_close_json_depth (xop : xo_handle_t) (o : XoOp)
    (hc : isClose o = true) (hs : xop.xo_style = .json)
    (hd : xop.xo_depth ≠ 0) :
    (xoStep xop o).xo_depth = xop.xo_depth - 1 := by
  cases o <;> simp_all [isClose] <;>
    unfold xoStep xo_close_container_h xo_close_list_h xo_close_instance_h <;>
    rw [hs] <;> dsimp only <;>
    rw [xo_depth_change_pop _ _ _ _ (by simpa using hd)] <;>
    simp <;> omega

/-- JSON `close-*` at non-zero depth: frames other than the old and new top
are untouched. -/
theorem xoStep_close_json_stack_low (xop : xo_handle_t) (o : XoOp)
    (hc : isClose o = true) (hs : xop.xo_style = .json)
    (hd : xop.xo_depth ≠ 0) (j : Nat)
    (hj : j ≠ xop.xo_depth.toNat) (hj2 : j ≠ (xop.xo_depth - 1).toNat) :
    (xoStep xop o).xo_stack j = xop.xo_stack j := by
  have h2 : xop.xo_depth + (-1) = xop.xo_depth - 1 := by omega
  have h3 : (xop.xo_depth - 1).toNat = xop.xo_depth.toNat - 1 := by omega
  rw [h3] at hj2
  cases o with
  | clC n =>
    unfold xoStep xo_close_container_h
    rw [hs]; dsimp only
    rw [xo_depth_change_pop _ _ _ _ hd]
    simp only [markNotFirst, xo_printf]
    simp [stackUpd, h2, h3, hj, hj2]
    split_ifs <;> simp_all [stackUpd, hj, hj2]
  | clL n =>
    unfold xoStep xo_close_list_h
    rw [hs]; dsimp only
    rw [xo_depth_change_pop _ _ _ _ (by simpa using hd)]
    simp only [markNotFirst, xo_printf]
    simp [stackUpd, h2, h3, hj, hj2]
    split_ifs <;> simp_all [stackUpd, hj, hj2]
  | clI n =>
    unfold xoStep xo_close_instance_h
    rw [hs]; dsimp only
    rw [xo_depth_change_pop _ _ _ _ hd]
    simp only [markNotFirst, xo_printf]
    simp [stackUpd, h2, h3, hj, hj2]
    split_ifs <;> simp_all [stackUpd, hj, hj2]
  | opC n => simp [isClose] at hc
  | opL n => simp [isClose] at hc
  | opI n => simp [isClose] at hc
  | emitV n f => simp [isClose] at hc

/-- JSON `close-*` at non-zero depth: the new top frame is marked
`XSF_NOT_FIRST`. -/
theorem xoStep_close_json_stack_newtop (xop : xo_handle_t) (o : XoOp)
    (hc : isClose o = true) (hs : xop.xo_style = .json)
    (hd : xop.xo_depth ≠ 0) :
    ((xoStep xop o).xo_stack ((xop.xo_depth - 1).toNat)).xs_notFirst = true := by
  have h2 : xop.xo_depth + (-1) = xop.xo_depth - 1 := by omega
  cases o with
  | clC n =>
    unfold xoStep xo_close_container_h
    rw [hs]; dsimp only
    rw [xo_depth_change_pop _ _ _ _ hd]
    simp [markNotFirst, xo_printf, stackUpd, h2]
  | clL n =>
    unfold xoStep xo_close_list_h
    rw [hs]; dsimp only
    rw [xo_depth_change_pop _ _ _ _ (by simpa using hd)]
    simp [markNotFirst, xo_printf, stackUpd, h2]
  | clI n =>
    unfold xoStep xo_close_instance_h
    rw [hs]; dsimp only
    rw [xo_depth_change_pop _ _ _ _ hd]
    simp [markNotFirst, xo_printf, stackUpd, h2]
  | opC n => simp [isClose] at hc
  | opL n => simp [isClose] at hc
  | opI n => simp [isClose] at hc
  | emitV n f => simp [isClose] at hc

/-- JSON `close-*`: the format-work buffer is untouched. -/
theorem xoStep_close_json_fmtbuf (xop : xo_handle_t) (o : XoOp)
    (hc : isClose o = true) (hs : xop.xo_style = .json) :
    (xoStep xop o).xo_fmtbuf = xop.xo_fmtbuf := by
  cases o <;> simp_all [isClose] <;>
    unfold xoStep xo_close_container_h xo_close_list_h xo_close_instance_h <;>
    rw [hs] <;> dsimp only <;>
    simp [markNotFirst, xo_printf]

/-- The head of a run of spaces is never a comma. -/
theorem head_replicate_space_ne (k : Nat) :
    (List.replicate k ' ').head? ≠ some ',' := by
  cases k <;> simp [List.replicate_succ] <;> decide

/-- A spaces-prefixed payload whose first non-space byte is not a comma does
not start with a comma. -/
theorem head_spaces_ne_comma (k : Nat) (c : Char) (l : List Char)
    (hch : c ≠ ',') : (spaces k ++ c :: l).head? ≠ some ',' := by
  rw [head_spaces_cons]
  intro h
  injection h with h2
  split_ifs at h2 <;> simp_all

/-- JSON `close-*`: exactly one payload is written, and it never starts with
the `,` separator (closing delimiters are never preceded by a comma). -/
theorem xoStep_close_json_out (xop : xo_handle_t) (o : XoOp)
    (hc : isClose o = true) (hs : xop.xo_style = .json) :
    ∃ c, (xoStep xop o).xo_out = xop.xo_out ++ [c] ∧ c.head? ≠ some ',' := by
  cases o with
  | clC n =>
    refine ⟨(if xop.xo_flags.pretty then ['
'] else []) ++
      (spaces (xo_indent_spaces (xo_depth_change xop n (-1) (-1) {})) ++
        rbrace :: (if xop.xo_depth ≤ 1 then ['
'] else [])), ?_, ?_⟩
    · unfold xoStep xo_close_container_h
      rw [hs]; dsimp only
      simp [xo_printf, markNotFirst]
    · by_cases hp : xop.xo_flags.pretty
      · simp [hp]
      · simp only [hp, if_neg, Bool.false_eq_true, not_false_eq_true,
          List.nil_append]
        exact head_spaces_ne_comma _ _ _ (by decide)
  | clL n =>
    refine ⟨(if (xop.xo_stack xop.xo_depth.toNat).xs_notFirst then
        (if xop.xo_flags.pretty then ['
'] else []) else []) ++
      (spaces (xo_indent_spaces
          (xo_depth_change (markNotFirst xop) n (-1) (-1) { list := true })) ++
        [']']), ?_, ?_⟩
    · unfold xoStep xo_close_list_h
      rw [hs]; dsimp only
      simp [xo_printf, markNotFirst]
    · split_ifs with h1 h2
      · simp
      · simp only [List.nil_append]
        exact head_spaces_ne_comma _ _ _ (by decide)
      · simp only [List.nil_append]
        exact head_spaces_ne_comma _ _ _ (by decide)
  | clI n =>
    refine ⟨(if xop.xo_flags.pretty then ['
'] else []) ++
      (spaces (xo_indent_spaces (xo_depth_change xop n (-1) (-1) {})) ++
        [rbrace]), ?_, ?_⟩
    · unfold xoStep xo_close_instance_h
      rw [hs]; dsimp only
      simp [xo_printf, markNotFirst]
    · by_cases hp : xop.xo_flags.pretty
      · simp [hp]
      · simp only [hp, if_neg, Bool.false_eq_true, not_false_eq_true,
          List.nil_append]
        exact head_spaces_ne_comma _ _ _ (by decide)
  | opC n => simp [isClose] at hc
  | opL n => simp [isClose] at hc
  | opI n => simp [isClose] at hc
  | emitV n f => simp [isClose] at hc

/-- No call changes the handle's style. -/
theorem xoStep_style (xop : xo_handle_t) (o : XoOp) :
    (xoStep xop o).xo_style = xop.xo_style := by
  cases o <;>
    unfold xoStep xo_open_container_h xo_close_container_h xo_open_list_h
      xo_close_list_h xo_open_instance_h xo_close_instance_h <;>
    (try cases hst : xop.xo_style) <;>
    dsimp only <;>
    simp [xo_format_value_style, markNotFirst, xo_printf, hst]

/-- One call preserves non-negativity of the depth (every pop is guarded by
the depth-0 check in `xo_depth_change`). -/
theorem xoStep_depth_nonneg (xop : xo_handle_t) (o : XoOp)
    (h : 0 ≤ xop.xo_depth) : 0 ≤ (xoStep xop o).xo_depth := by
  cases o <;>
    unfold xoStep xo_open_container_h xo_close_container_h xo_open_list_h
      xo_close_list_h xo_open_instance_h xo_close_instance_h <;>
    (try cases hst : xop.xo_style) <;>
    dsimp only <;>
    (try simp [xo_depth_change_depth, xo_format_value_depth, markNotFirst,
      xo_printf]) <;>
    (try split_ifs) <;> omega

/-!
## The comma/NotFirst invariant (JSON)
-/

/-- The invariant tying `XSF_NOT_FIRST` to the ghost child counters: on a
JSON handle with an empty format-work buffer and non-negative depth, a live
frame is `XSF_NOT_FIRST` exactly when it has at least one completed child,
and every frame strictly below the top has at least one child (the currently
open one). -/
def C1Inv (xop : xo_handle_t) (ch : Nat → Nat) : Prop :=
  xop.xo_style = .json ∧
  xop.xo_fmtbuf = [] ∧
  0 ≤ xop.xo_depth ∧
  (∀ i, i ≤ xop.xo_depth.toNat →
    ((xop.xo_stack i).xs_notFirst = true ↔ 0 < ch i)) ∧
  (∀ i, i < xop.xo_depth.toNat → 0 < ch i)

/-- The close cases of the invariant preservation. -/
theorem C1Inv_step_close (xop : xo_handle_t) (ch : Nat → Nat) (o : XoOp)
    (hc : isClose o = true) (hs : xop.xo_style = .json)
    (hb : xop.xo_fmtbuf = []) (hd0 : 0 < xop.xo_depth)
    (hA : ∀ i, i ≤ xop.xo_depth.toNat →
      ((xop.xo_stack i).xs_notFirst = true ↔ 0 < ch i))
    (hB : ∀ i, i < xop.xo_depth.toNat → 0 < ch i) :
    C1Inv (xoStep xop o) (childStep xop ch o) := by
  have hds : (xoStep xop o).xo_depth = xop.xo_depth - 1 :=
    xoStep_close_json_depth xop o hc hs (by omega)
  have hdn : (xop.xo_depth - 1).toNat = xop.xo_depth.toNat - 1 := by omega
  have hch : childStep xop ch o = ch := by
    cases o <;> simp_all [isClose, childStep]
  refine ⟨(xoStep_style xop o).trans hs,
    (xoStep_close_json_fmtbuf xop o hc hs).trans hb, by omega, ?_, ?_⟩
  · intro i hi
    rw [hds, hdn] at hi
    rw [hch]
    by_cases hieq : i = (xop.xo_depth - 1).toNat
    · subst hieq
      rw [xoStep_close_json_stack_newtop xop o hc hs (by omega)]
      have hpos : 0 < ch ((xop.xo_depth - 1).toNat) := hB _ (by omega)
      simpa using hpos
    · rw [xoStep_close_json_stack_low xop o hc hs (by omega) i (by omega) hieq]
      exact hA i (by omega)
  · intro i hi
    rw [hds, hdn] at hi
    rw [hch]
    exact hB i (by omega)

/-- One call preserves the invariant, provided it does not pop at depth 0. -/
theorem C1Inv_step (xop : xo_handle_t) (ch : Nat → Nat) (o : XoOp)
    (h : C1Inv xop ch) (hcl : isClose o = true → 0 < xop.xo_depth) :
    C1Inv (xoStep xop o) (childStep xop ch o) := by
  obtain ⟨hs, hb, hd, hA, hB⟩ := h
  have hdn : (xop.xo_depth + 1).toNat = xop.xo_depth.toNat + 1 := by omega
  cases o with
  | opC n =>
    rw [xoStep_opC_json xop n hs hd]
    refine ⟨hs, hb, by dsimp only; omega, ?_, ?_⟩
    · intro i hi
      dsimp only at hi ⊢
      rw [hdn] at hi
      by_cases h1 : i = xop.xo_depth.toNat + 1
      · subst h1
        rw [stackUpd_same]
        simp [childStep]
      · by_cases h2 : i = xop.xo_depth.toNat
        · subst h2
          rw [stackUpd_other _ _ _ _ h1, stackUpd_same]
          simp [childStep]
        · rw [stackUpd_other _ _ _ _ h1, stackUpd_other _ _ _ _ h2]
          simp only [childStep, if_neg h2, if_neg h1]
          exact hA i (by omega)
    · intro i hi
      dsimp only at hi
      rw [hdn] at hi
      by_cases h2 : i = xop.xo_depth.toNat
      · subst h2
        simp [childStep]
      · have h1 : i ≠ xop.xo_depth.toNat + 1 := by omega
        simp only [childStep, if_neg h2, if_neg h1]
        exact hB i (by omega)
  | opL n =>
    rw [xoStep_opL_json xop n hs hd]
    refine ⟨hs, hb, by dsimp only; omega, ?_, ?_⟩
    · intro i hi
      dsimp only at hi ⊢
      rw [hdn] at hi
      by_cases h1 : i = xop.xo_depth.toNat + 1
      · subst h1
        rw [stackUpd_same]
        simp [childStep]
      · by_cases h2 : i = xop.xo_depth.toNat
        · subst h2
          rw [stackUpd_other _ _ _ _ h1, stackUpd_same]
          simp [childStep]
        · rw [stackUpd_other _ _ _ _ h1, stackUpd_other _ _ _ _ h2]
          simp only [childStep, if_neg h2, if_neg h1]
          exact hA i (by omega)
    · intro i hi
      dsimp only at hi
      rw [hdn] at hi
      by_cases h2 : i = xop.xo_depth.toNat
      · subst h2
        simp [childStep]
      · have h1 : i ≠ xop.xo_depth.toNat + 1 := by omega
        simp only [childStep, if_neg h2, if_neg h1]
        exact hB i (by omega)
  | opI n =>
    rw [xoStep_opI_json xop n hs hd]
    refine ⟨hs, hb, by dsimp only; omega, ?_, ?_⟩
    · intro i hi
      dsimp only at hi ⊢
      rw [hdn] at hi
      by_cases h1 : i = xop.xo_depth.toNat + 1
      · subst h1
        rw [stackUpd_same]
        simp [childStep]
      · by_cases h2 : i = xop.xo_depth.toNat
        · subst h2
          rw [stackUpd_other _ _ _ _ h1, stackUpd_same]
          simp [childStep]
        · rw [stackUpd_other _ _ _ _ h1, stackUpd_other _ _ _ _ h2]
          simp only [childStep, if_neg h2, if_neg h1]
          exact hA i (by omega)
    · intro i hi
      dsimp only at hi
      rw [hdn] at hi
      by_cases h2 : i = xop.xo_depth.toNat
      · subst h2
        simp [childStep]
      · have h1 : i ≠ xop.xo_depth.toNat + 1 := by omega
        simp only [childStep, if_neg h2, if_neg h1]
        exact hB i (by omega)
  | emitV n f =>
    rw [xoStep_emitV_json xop n f hs hb]
    refine ⟨hs, rfl, by dsimp only; omega, ?_, ?_⟩
    · intro i hi
      dsimp only at hi ⊢
      by_cases h2 : i = xop.xo_depth.toNat
      · subst h2
        rw [stackUpd_same]
        simp [childStep]
      · rw [stackUpd_other _ _ _ _ h2]
        simp only [childStep, if_neg h2]
        exact hA i hi
    · intro i hi
      dsimp only at hi
      simp only [childStep]
      by_cases h2 : i = xop.xo_depth.toNat
      · omega
      · rw [if_neg h2]
        exact hB i hi
  | clC n =>
    exact C1Inv_step_close xop ch (.clC n) rfl hs hb (hcl rfl) hA hB
  | clL n =>
    exact C1Inv_step_close xop ch (.clL n) rfl hs hb (hcl rfl) hA hB
  | clI n =>
    exact C1Inv_step_close xop ch (.clI n) rfl hs hb (hcl rfl) hA hB

/-- Lemma: `spaces` never begins with a comma. -/
theorem head_spaces_ne (k : Nat) : (spaces k).head? ≠ some ',' :=
  head_replicate_space_ne k

theorem lbrace_ne_comma : lbrace ≠ ',' := by decide

theorem dquote_ne_comma : '"' ≠ ',' := by decide

/-- JSON child-producing calls (`open_container`, `open_list`,
`open_instance`, a single-value emit): exactly one payload is written, and it
starts with the `,` separator exactly when the current frame was already
`XSF_NOT_FIRST`. -/
theorem xoStep_open_json_out (xop : xo_handle_t) (o : XoOp)
    (hp : producesChild o = true) (hs : xop.xo_style = .json)
    (hb : xop.xo_fmtbuf = []) (hd : 0 ≤ xop.xo_depth) :
    ∃ c, (xoStep xop o).xo_out = xop.xo_out ++ [c] ∧
      ((c.head? = some ',') ↔
        (xop.xo_stack xop.xo_depth.toNat).xs_notFirst = true) := by
  cases o with
  | opC n =>
    rw [xoStep_opC_json xop n hs hd]
    refine ⟨opCChunk xop n, rfl, ?_⟩
    unfold opCChunk
    by_cases hnf : (xop.xo_stack xop.xo_depth.toNat).xs_notFirst
    · simp [hnf, jsonSep]
      split_ifs <;> simp
    · have hne := head_spaces_ne_comma (xo_indent_spaces xop) '"'
        (n.toList ++ '"' :: ':' :: ' ' :: lbrace :: ppnOf xop) (by decide)
      simp [hnf, hne, head_spaces_ne, lbrace_ne_comma, dquote_ne_comma]
  | opL n =>
    rw [xoStep_opL_json xop n hs hd]
    refine ⟨opLChunk xop n, rfl, ?_⟩
    unfold opLChunk
    by_cases hnf : (xop.xo_stack xop.xo_depth.toNat).xs_notFirst
    · simp [hnf, jsonSep]
      split_ifs <;> simp
    · have hne := head_spaces_ne_comma (xo_indent_spaces xop) '"'
        (n.toList ++ '"' :: ':' :: ' ' :: '[' :: ppnOf xop) (by decide)
      simp [hnf, hne, head_spaces_ne, lbrace_ne_comma, dquote_ne_comma]
  | opI n =>
    rw [xoStep_opI_json xop n hs hd]
    refine ⟨opIChunk xop, rfl, ?_⟩
    unfold opIChunk
    by_cases hnf : (xop.xo_stack xop.xo_depth.toNat).xs_notFirst
    · simp [hnf, jsonSep]
      split_ifs <;> simp
    · have hne := head_spaces_ne_comma (xo_indent_spaces xop) lbrace
        (ppnOf xop) (by decide)
      simp [hnf, hne, head_spaces_ne, lbrace_ne_comma]
  | emitV n f =>
    rw [xoStep_emitV_json xop n f hs hb]
    refine ⟨emitVChunk xop n f, rfl, ?_⟩
    unfold emitVChunk
    by_cases hnf : (xop.xo_stack xop.xo_depth.toNat).xs_notFirst
    · simp [hnf]
    · by_cases hpr : xop.xo_flags.pretty
      · have hne := head_spaces_ne_comma (xo_indent_spaces xop) '"'
          (n.toList ++ ['"', ':'] ++ [' '] ++
            (if f.toList.getLast? = some 's' then '"' :: f.toList ++ ['"']
             else f.toList)) (by decide)
        simp only [hnf, Bool.false_eq_true, if_neg, if_false, hpr, if_true,
          List.nil_append, List.append_assoc] at hne ⊢
        simp [hne, hnf, head_spaces_ne, dquote_ne_comma]
      · simp [hnf, hpr]
  | clC n => simp [producesChild] at hp
  | clL n => simp [producesChild] at hp
  | clI n => simp [producesChild] at hp

/-- A JSON handle as `xo_create` builds it (`LIBXO_OPTIONS` unset). -/
def jsonH (fl : XoFlags) : xo_handle_t := xo_create .json fl none

/-- The invariant holds on a fresh JSON handle with all-zero counters. -/
theorem C1Inv_init (fl : XoFlags) : C1Inv (jsonH fl) (fun _ => 0) := by
  refine ⟨rfl, rfl, by simp [jsonH, xo_create, xo_init_handle, emptyHandle], ?_, ?_⟩
  · intro i hi
    simp [jsonH, xo_create, xo_init_handle, emptyHandle]
  · intro i hi
    simp [jsonH, xo_create, xo_init_handle, emptyHandle] at hi
/-- Running a non-underflowing sequence preserves the invariant. -/
theorem C1Inv_run (xop : xo_handle_t) (ch : Nat → Nat) (ops : List XoOp)
    (h : C1Inv xop ch) (hnu : noUnderflowB xop ops = true) :
    C1Inv (xoRun xop ops) (chRun xop ch ops) := by
  induction ops generalizing xop ch with
  | nil => simpa [xoRun, chRun] using h
  | cons o rest ih =>
    rw [noUnderflowB, Bool.and_eq_true] at hnu
    refine ih (xoStep xop o) (childStep xop ch o) (C1Inv_step xop ch o h ?_) hnu.2
    intro hco
    have h1 := hnu.1
    rw [hco] at h1
    simpa using h1

/-!
## Claim theorems
-/

/-- C1.  For every sequence of JSON-style operations on a handle (any prefix
of a well-nested sequence: no close underflows), within any emitted object or
array the `,` separator appears only between consecutive children: (a) a live
frame's `NotFirst` flag is set exactly when at least one child-producing
operation (`open_container`, `open_list`, `open_instance`, or a
value-emitting emit) has completed on that frame; (b) the payload written by
the next child-producing operation starts with `,` exactly when the current
frame already has a child (so never before the first child); (c) the payload
written by a `close-*` never starts with `,` (so never after the last
child). -/
theorem json_comma_and_notFirst (fl : XoFlags) (ops : List XoOp) (o : XoOp)
    (hnu : noUnderflowB (jsonH fl) ops = true) :
    (∀ i, i ≤ (xoRun (jsonH fl) ops).xo_depth.toNat →
      (((xoRun (jsonH fl) ops).xo_stack i).xs_notFirst = true ↔
        0 < chRun (jsonH fl) (fun _ => 0) ops i)) ∧
    (producesChild o = true →
      ∃ c, (xoStep (xoRun (jsonH fl) ops) o).xo_out =
          (xoRun (jsonH fl) ops).xo_out ++ [c] ∧
        ((c.head? = some ',') ↔
          0 < chRun (jsonH fl) (fun _ => 0) ops
            ((xoRun (jsonH fl) ops).xo_depth.toNat))) ∧
    (isClose o = true →
      ∃ c, (xoStep (xoRun (jsonH fl) ops) o).xo_out =
          (xoRun (jsonH fl) ops).xo_out ++ [c] ∧
        c.head? ≠ some ',') := by
  obtain ⟨hs, hb, hd, hA, hB⟩ :=
    C1Inv_run (jsonH fl) (fun _ => 0) ops (C1Inv_init fl) hnu
  refine ⟨hA, ?_, ?_⟩
  · intro hp
    obtain ⟨c, hc1, hc2⟩ := xoStep_open_json_out _ o hp hs hb hd
    exact ⟨c, hc1, by rw [hc2]; exact hA _ (le_refl _)⟩
  · intro hcl
    exact xoStep_close_json_out _ o hcl hs

/-- C1 witness: on `open_container "top"; emit "{:x/%d}"`, frame 1 (inside
`top`) is `NotFirst` exactly when its child counter is positive. -/
theorem json_comma_and_notFirst_witness :
    noUnderflowB (jsonH {}) [XoOp.opC "top", XoOp.emitV "x" "%d"] = true ∧
    (((xoRun (jsonH {}) [XoOp.opC "top", XoOp.emitV "x" "%d"]).xo_stack 1).xs_notFirst = true ↔
      0 < chRun (jsonH {}) (fun _ => 0) [XoOp.opC "top", XoOp.emitV "x" "%d"] 1) :=
  ⟨by decide,
    (json_comma_and_notFirst {} [XoOp.opC "top", XoOp.emitV "x" "%d"]
      (XoOp.emitV "y" "%d") (by decide)).1 1 (by decide)⟩

/-- The quoting policy exactly as the specification words it: if `Quote` is
set, quote; else if `NoQuote` is set, do not quote; else quote iff the last
character of the chosen encode/print-fmt is `s`. -/
def specQuote (fl : XoFieldFlags) (chosen : List Char) : Bool :=
  if fl.quote then true
  else if fl.noquote then false
  else decide (chosen.getLast? = some 's')

set_option maxHeartbeats 1600000 in
/-- C2.  For a value field rendered in JSON style, the rendered value — the
chosen format (encode-fmt when present, else print-fmt), whose printf
conversions the final substitution pass resolves in place — is wrapped in
double quotes exactly according to `specQuote`: `Quote` forces quotes,
otherwise `NoQuote` forces none, otherwise quotes appear iff the chosen
format ends in `s`.  (`xo_format_value` reads the chosen format's last byte,
so the hypotheses record that the parser never hands it an empty one.) -/
theorem json_value_quoting (xop : xo_handle_t) (name : Option (List Char))
    (format : List Char) (encoding : Option (List Char)) (fl : XoFieldFlags)
    (hs : xop.xo_style = .json) (hf : format ≠ [])
    (he : ∀ e, encoding = some e → e ≠ []) :
    ∃ pre, (xo_format_value xop name format encoding fl).xo_fmtbuf =
      xop.xo_fmtbuf ++ pre ++
        (if specQuote fl (encoding.getD format) then
           '"' :: (encoding.getD format) ++ ['"']
         else encoding.getD format) := by
  unfold xo_format_value specQuote
  rw [hs]
  dsimp only
  unfold xo_format_prep
  refine ⟨(if (xop.xo_stack xop.xo_depth.toNat).xs_notFirst then
      ',' :: (if xop.xo_flags.pretty then ['\n'] else []) else []) ++
    (if xop.xo_flags.pretty then spaces (xo_indent_spaces xop) else []) ++
    '"' :: (name.getD []) ++ ['"', ':'] ++
    (if xop.xo_flags.pretty then [' '] else []), ?_⟩
  by_cases hnf : (xop.xo_stack xop.xo_depth.toNat).xs_notFirst <;>
    by_cases hp : xop.xo_flags.pretty <;>
    simp [hnf, hp, markNotFirst, xo_buf_indent, xo_indent_spaces, fmtAppend,
      List.append_assoc] <;>
    (try split_ifs) <;>
    simp [List.append_assoc]

/-- C2 witness: a concrete JSON value field with print-fmt `%d` and no
flags, where the policy yields no quotes. -/
theorem json_value_quoting_witness :
    (jsonH {}).xo_style = XoStyle.json ∧
    ("%d".toList ≠ []) ∧
    (∀ e, (none : Option (List Char)) = some e → e ≠ []) ∧
    (∃ pre, (xo_format_value (jsonH {}) (some "k".toList) "%d".toList none
        {}).xo_fmtbuf =
      (jsonH {}).xo_fmtbuf ++ pre ++
        (if specQuote {} ((none : Option (List Char)).getD "%d".toList) then
           '"' :: ((none : Option (List Char)).getD "%d".toList) ++ ['"']
         else (none : Option (List Char)).getD "%d".toList)) :=
  ⟨rfl, by decide, by simp,
    json_value_quoting (jsonH {}) (some "k".toList) "%d".toList none {}
      rfl (by decide) (by simp)⟩

/-- A JSON handle with `Warn` set, as `xo_create` builds it. -/
def jsonWarnH : xo_handle_t := xo_create .json { warn := true } none

/-- The name argument of a call. -/
def closeName : XoOp → String
  | .opC n => n
  | .clC n => n
  | .opL n => n
  | .clL n => n
  | .opI n => n
  | .clI n => n
  | .emitV n _ => n

/-- Does a `close-*` call reach `xo_depth_change` in the given style?
(`close_list` is a complete no-op outside JSON.) -/
def closeTouches (sty : XoStyle) : XoOp → Bool
  | .clL _ => sty = .json
  | _ => true

/-- C3 counterexample: in JSON style at depth 0 (`Warn` off),
`close_container` does *not* leave the rest of the stack state unchanged —
the root frame's `NotFirst` flag becomes set. -/
theorem close_at_depth0_changes_stack :
    ((jsonH {}).xo_stack 0).xs_notFirst = false ∧
    (xo_close_container_h (jsonH {}) "x").1.xo_depth = 0 ∧
    ((xo_close_container_h (jsonH {}) "x").1.xo_stack 0).xs_notFirst = true := by
  decide

/-- C3 amended.  A `close-*` call at depth 0 leaves the depth and the indent
unchanged and emits exactly one "close with empty stack" warning iff `Warn`
is set — except `close_list` outside JSON, which is a complete no-op and
never warns.  The stack is unchanged except that in JSON style the root
frame's `NotFirst` flag becomes set as a side effect of the close. -/
theorem close_at_depth0 (xop : xo_handle_t) (o : XoOp)
    (hc : isClose o = true) (h0 : xop.xo_depth = 0) :
    (xoStep xop o).xo_depth = xop.xo_depth ∧
    (xoStep xop o).xo_indent = xop.xo_indent ∧
    (xoStep xop o).xo_warnings = xop.xo_warnings ++
      (if xop.xo_flags.warn = true ∧ closeTouches xop.xo_style o = true then
        [XoWarning.closeWithEmptyStack (closeName o)] else []) ∧
    (∀ j, j ≠ 0 → (xoStep xop o).xo_stack j = xop.xo_stack j) ∧
    (xoStep xop o).xo_stack 0 =
      (if xop.xo_style = .json then
        { xop.xo_stack 0 with xs_notFirst := true }
      else xop.xo_stack 0) := by
  have h0n : xop.xo_depth.toNat = 0 := by omega
  cases o with
  | clC n =>
    cases hst : xop.xo_style <;>
      (unfold xoStep xo_close_container_h
       rw [hst]
       dsimp only
       rw [xo_depth_change_pop_zero _ _ _ _ h0]
       split_ifs <;>
         simp_all [closeTouches, closeName, markNotFirst, xo_printf, h0n,
           stackUpd])
  | clI n =>
    cases hst : xop.xo_style <;>
      (unfold xoStep xo_close_instance_h
       rw [hst]
       dsimp only
       rw [xo_depth_change_pop_zero _ _ _ _ h0]
       split_ifs <;>
         simp_all [closeTouches, closeName, markNotFirst, xo_printf, h0n,
           stackUpd])
  | clL n =>
    cases hst : xop.xo_style <;>
      unfold xoStep xo_close_list_h <;>
      rw [hst] <;>
      dsimp only
    case json =>
      rw [xo_depth_change_pop_zero _ _ _ _ (by simpa using h0)]
      split_ifs <;>
        simp_all [closeTouches, closeName, markNotFirst, xo_printf, h0n,
          stackUpd]
    all_goals
      simp_all [closeTouches, closeName]
  | opC n => simp [isClose] at hc
  | opL n => simp [isClose] at hc
  | opI n => simp [isClose] at hc
  | emitV n f => simp [isClose] at hc

/-- C3 witness: a JSON handle with `Warn` on, closing at depth 0. -/
theorem close_at_depth0_witness :
    isClose (XoOp.clC "x") = true ∧ (jsonWarnH).xo_depth = 0 ∧
    ((xoStep jsonWarnH (XoOp.clC "x")).xo_depth = jsonWarnH.xo_depth ∧
     (xoStep jsonWarnH (XoOp.clC "x")).xo_indent = jsonWarnH.xo_indent ∧
     (xoStep jsonWarnH (XoOp.clC "x")).xo_warnings = jsonWarnH.xo_warnings ++
       (if jsonWarnH.xo_flags.warn = true ∧
           closeTouches jsonWarnH.xo_style (XoOp.clC "x") = true then
         [XoWarning.closeWithEmptyStack (closeName (XoOp.clC "x"))] else []) ∧
     (∀ j, j ≠ 0 →
       (xoStep jsonWarnH (XoOp.clC "x")).xo_stack j = jsonWarnH.xo_stack j) ∧
     (xoStep jsonWarnH (XoOp.clC "x")).xo_stack 0 =
       (if jsonWarnH.xo_style = .json then
         { jsonWarnH.xo_stack 0 with xs_notFirst := true }
       else jsonWarnH.xo_stack 0)) :=
  ⟨rfl, rfl, close_at_depth0 jsonWarnH (XoOp.clC "x") rfl rfl⟩

/-- C4 (code bug).  `xo_buf_has_room` grows by exactly one `XO_BUFSIZ` chunk
and returns success without re-checking the requested length: on a fresh
8192-byte buffer a request of 20000 bytes reports success but does not fit
in the grown 16384-byte buffer, so the `memcpy` of the subsequent
`xo_buf_append` writes past the end (its insertion point lands beyond the
allocation). -/
theorem buf_has_room_overflow :
    (xo_buf_has_room ⟨XO_BUFSIZ, 0⟩ 20000 true).1 = true ∧
    ¬ memcpyInBounds (xo_buf_has_room ⟨XO_BUFSIZ, 0⟩ 20000 true).2 20000 ∧
    (xo_buf_append ⟨XO_BUFSIZ, 0⟩ 20000 true).xb_size <
      (xo_buf_append ⟨XO_BUFSIZ, 0⟩ 20000 true).xb_off := by
  decide

/-- A byte-level default-handle record after initialisation: non-zero
pointer values stand for the allocated stack, the two buffers, and the
stdout write callback. -/
def initedRec : xo_handle_rec :=
  { r_style := 0, r_flags := 0, r_indent := 0, r_indent_by := 2,
    r_write := 7001, r_close := 0, r_formatter := 0, r_opaque := 7002,
    r_fp := 0, r_data_bufp := 7003, r_fmt_bufp := 7004, r_stack := 7005,
    r_depth := 0, r_stack_size := 512, r_info := 0, r_info_count := 0 }

/-- C9 (code bug).  `xo_destroy` of the default handle passes
`sizeof(&xo_default_handle)` — the size of a pointer, 8 bytes — to `bzero`,
so only the four leading `unsigned short` fields are cleared.
`default_inited` is cleared, but the freed stack and buffer pointers and the
write callback keep their (now dangling) values: the record does not read as
all zero. -/
theorem destroy_default_not_zeroed :
    (xo_destroy_default initedRec).2 = false ∧
    (xo_destroy_default initedRec).1.r_indent_by = 0 ∧
    (xo_destroy_default initedRec).1.r_stack = 7005 ∧
    (xo_destroy_default initedRec).1.r_stack ≠ 0 ∧
    (xo_destroy_default initedRec).1.r_data_bufp = 7003 ∧
    (xo_destroy_default initedRec).1.r_fmt_bufp = 7004 ∧
    (xo_destroy_default initedRec).1.r_write = 7001 := by
  decide

/-- Running a sequence preserves non-negativity of the depth. -/
theorem xoRun_depth_nonneg (ops : List XoOp) (xop : xo_handle_t)
    (h : 0 ≤ xop.xo_depth) : 0 ≤ (xoRun xop ops).xo_depth := by
  induction ops generalizing xop with
  | nil => simpa [xoRun] using h
  | cons o rest ih => exact ih _ (xoStep_depth_nonneg xop o h)

/-- C10.  For every sequence of structural and emission calls, in any style,
the depth counter of a freshly created handle never becomes negative: every
pop at depth 0 returns without decrementing, so `0 ≤ depth` is an invariant
of all the operations. -/
theorem depth_never_negative (style : XoStyle) (fl : XoFlags)
    (ops : List XoOp) :
    0 ≤ (xoRun (xo_create style fl none) ops).xo_depth := by
  refine xoRun_depth_nonneg ops _ ?_
  simp [xo_create, xo_init_handle, emptyHandle]

/-- C7 counterexample: with `Warn` set and `Xpath` clear, the name is stored
on push (the push condition is `XOF_XPATH | XOF_WARN`) but the pop frees it
only under `XOF_XPATH`, so the popped frame retains its owned name. -/
theorem pop_retains_name_with_warn :
    jsonWarnH.xo_flags.warn = true ∧ jsonWarnH.xo_flags.xpath = false ∧
    ((xoStep jsonWarnH (.opC "a")).xo_stack 1).xs_name = some "a" ∧
    (xoStep (xoStep jsonWarnH (.opC "a")) (.clC "a")).xo_depth = 0 ∧
    ((xoStep (xoStep jsonWarnH (.opC "a")) (.clC "a")).xo_stack 1).xs_name =
      some "a" := by
  decide

/-- C7 amended.  On a handle with `Xpath` enabled, every `close-*` that
reaches `xo_depth_change` at depth > 0 frees the popped frame's owned name
and clears its name field (before recording the decremented depth); with
`Warn` alone the name is retained. -/
theorem pop_clears_name_with_xpath (xop : xo_handle_t) (o : XoOp)
    (hc : isClose o = true) (hx : xop.xo_flags.xpath = true)
    (hd : 0 < xop.xo_depth)
    (ht : closeTouches xop.xo_style o = true) :
    ((xoStep xop o).xo_stack xop.xo_depth.toNat).xs_name = none ∧
    (xoStep xop o).xo_depth = xop.xo_depth - 1 := by
  have h2 : xop.xo_depth + (-1) = xop.xo_depth - 1 := by omega
  have h4 : (xop.xo_depth - 1).toNat ≠ xop.xo_depth.toNat := by omega
  have h5 : xop.xo_depth.toNat ≠ xop.xo_depth.toNat - 1 := by omega
  have h6 : xop.xo_depth.toNat - 1 ≠ xop.xo_depth.toNat := by omega
  cases o with
  | clC n =>
    cases hst : xop.xo_style <;>
      (unfold xoStep xo_close_container_h
       rw [hst]
       dsimp only
       rw [xo_depth_change_pop _ _ _ _ (by omega)]
       simp [markNotFirst, xo_printf, stackUpd, hx, h2, h4, h5, h6])
  | clI n =>
    cases hst : xop.xo_style <;>
      (unfold xoStep xo_close_instance_h
       rw [hst]
       dsimp only
       rw [xo_depth_change_pop _ _ _ _ (by omega)]
       simp [markNotFirst, xo_printf, stackUpd, hx, h2, h4, h5, h6])
  | clL n =>
    cases hst : xop.xo_style
    case json =>
      unfold xoStep xo_close_list_h
      rw [hst]
      dsimp only
      rw [xo_depth_change_pop _ _ _ _
        (by simpa using (by omega : xop.xo_depth ≠ 0))]
      simp [markNotFirst, xo_printf, stackUpd, hx, h2, h4, h5, h6]
    all_goals simp_all [closeTouches]
  | opC n => simp [isClose] at hc
  | opL n => simp [isClose] at hc
  | opI n => simp [isClose] at hc
  | emitV n f => simp [isClose] at hc

/-- A JSON handle with `Xpath` set, as `xo_create` builds it. -/
def jsonXpathH : xo_handle_t := xo_create .json { xpath := true } none

/-- C7 witness: with `Xpath` set, closing the container frees and clears the
popped frame's name. -/
theorem pop_clears_name_with_xpath_witness :
    isClose (XoOp.clC "a") = true ∧
    (xoStep jsonXpathH (XoOp.opC "a")).xo_flags.xpath = true ∧
    0 < (xoStep jsonXpathH (XoOp.opC "a")).xo_depth ∧
    closeTouches (xoStep jsonXpathH (XoOp.opC "a")).xo_style (XoOp.clC "a") = true ∧
    (((xoStep (xoStep jsonXpathH (XoOp.opC "a")) (XoOp.clC "a")).xo_stack
        (xoStep jsonXpathH (XoOp.opC "a")).xo_depth.toNat).xs_name = none ∧
      (xoStep (xoStep jsonXpathH (XoOp.opC "a")) (XoOp.clC "a")).xo_depth =
        (xoStep jsonXpathH (XoOp.opC "a")).xo_depth - 1) :=
  ⟨rfl, by decide, by decide, by decide,
    pop_clears_name_with_xpath (xoStep jsonXpathH (XoOp.opC "a"))
      (XoOp.clC "a") rfl (by decide) (by decide) (by decide)⟩

/-- C8 counterexample: `LIBXO_OPTIONS` parsing lives in `xo_init_handle`,
which `xo_create` calls, so a handle created with style Text under
`LIBXO_OPTIONS=J` comes back with style JSON — not exactly the style passed
as argument. -/
theorem create_applies_env_options :
    (xo_create .text {} (some "J")).xo_style = XoStyle.json ∧
    XoStyle.json ≠ XoStyle.text := by
  constructor
  · simp [xo_create, xo_init_handle, applyEnv]
  · decide

/-- C8 amended.  The `LIBXO_OPTIONS` characters are applied by
`xo_init_handle`, i.e. during *every* handle initialisation: the default
handle's lazy init and `xo_create` alike.  `create(style, flags)` yields
exactly the requested style and flags only when the variable is unset;
otherwise the option characters are applied on top of them, by the same
transformation as for the default handle. -/
theorem create_env_amended (style : XoStyle) (fl : XoFlags) :
    (xo_create style fl none).xo_style = style ∧
    (xo_create style fl none).xo_flags = fl ∧
    (∀ e, xo_create style fl (some e) =
      applyEnv e.toList (xo_create style fl none)) ∧
    (∀ e, xo_default_init (some e) =
      applyEnv e.toList (xo_default_init none)) :=
  ⟨rfl, rfl, fun _ => rfl, fun _ => rfl⟩

/-- Lemma: `xo_format_title` never writes to the sink. -/
theorem xo_format_title_out (xop : xo_handle_t) (content fmt : List Char)
    (w : xo_handle_t) (h : xo_format_title xop content fmt = .ok w) :
    w.xo_out = xop.xo_out := by
  unfold xo_format_title at h
  repeat' split at h
  all_goals
    (try simp only [Except.ok.injEq] at h)
  all_goals
    first
    | (subst h
       first
       | (split_ifs <;> simp)
       | simp
       | rfl)
    | exact absurd h (by simp)

/-- Lemma: `renderField` never writes to the sink. -/
theorem renderField_out (xop : xo_handle_t) (pf : ParsedField)
    (w : xo_handle_t) (h : renderField xop pf = .ok w) :
    w.xo_out = xop.xo_out := by
  unfold renderField at h
  dsimp only at h
  split at h
  · simp at h
  · rename_i x1 hx1
    have hx1out : x1.xo_out = xop.xo_out := by
      split_ifs at hx1
      · exact xo_format_title_out _ _ _ _ hx1
      all_goals
        injection hx1 with he
      all_goals
        rw [← he]
      all_goals
        simp [xo_format_value_out]
    simp only [Except.ok.injEq] at h
    rw [← h]
    split_ifs <;> simp [hx1out]

/-- The emission walk writes nothing to the sink: the single write happens
in `xo_emit_hv` after the substitution pass. -/
theorem xo_emit_walk_out (n : Nat) : ∀ (cp : List Char), cp.length ≤ n →
    ∀ (xop : xo_handle_t) (fmt : String) (w : xo_handle_t),
    xo_emit_walk xop fmt cp = .ok w → w.xo_out = xop.xo_out := by
  induction n with
  | zero =>
    intro cp hcp xop fmt w hw
    have hnil : cp = [] := by
      cases cp <;> simp_all
    subst hnil
    simp [xo_emit_walk] at hw
    subst hw
    rfl
  | succ n ih =>
    intro cp hcp xop fmt w hw
    match cp with
    | [] =>
      simp [xo_emit_walk] at hw
      subst hw
      rfl
    | c :: rest =>
      have hrn : rest.length ≤ n := by simp at hcp; omega
      have hlen : ∀ (k : Nat), (rest.drop k).length ≤ n := by
        intro k
        simp [List.length_drop]
        omega
      rw [xo_emit_walk] at hw
      by_cases h1 : c = '\n'
      · rw [if_pos h1] at hw
        have := ih rest hrn _ _ _ hw
        simp_all
      · rw [if_neg h1] at hw
        by_cases h2 : c = lbrace
        · rw [if_pos h2] at hw
          by_cases h3 : rest.head? = some lbrace
          · rw [if_pos h3] at hw
            dsimp only at hw
            by_cases h4 : rest.drop (escScan (rest.drop 1) + 3) = []
            · rw [if_pos h4] at hw
              have := ih [] (by simp) _ _ _ hw
              simp_all
            · rw [if_neg h4] at hw
              have := ih _ (hlen (escScan (rest.drop 1) + 4)) _ _ _ hw
              simp_all
          · rw [if_neg h3] at hw
            cases hpf : parseField xop.xo_flags.warn fmt rest with
            | none =>
              rw [hpf] at hw
              simp at hw
            | some val =>
              obtain ⟨consumed, pf, ws⟩ := val
              rw [hpf] at hw
              dsimp only at hw
              cases hrf : renderField
                  { xop with xo_warnings := xop.xo_warnings ++ ws } pf with
              | error e =>
                rw [hrf] at hw
                simp at hw
              | ok x2 =>
                rw [hrf] at hw
                have h5 := ih _ (hlen consumed) _ _ _ hw
                have h6 := renderField_out _ _ _ hrf
                simp_all
        · rw [if_neg h2] at hw
          dsimp only at hw
          have := ih _
            (hlen ((List.takeWhile (fun d => ¬ (d = lbrace ∨ d = '\n'))
              (c :: rest)).length - 1)) _ _ _ hw
          simp_all

/-- On `xo_emit_hv` success: exactly one sink write, of the substituted data
buffer, and the returned `rc` is that payload's byte count — the write
callback's return value plays no part in it. -/
theorem xo_emit_hv_ok (xop : xo_handle_t) (fmt : String)
    (subst : List Char → List Char) (w : xo_handle_t) (rc : Int)
    (h : xo_emit_hv xop fmt subst = .ok (w, rc)) :
    ∃ c, w.xo_out = xop.xo_out ++ [c] ∧ rc = (c.length : Int) := by
  unfold xo_emit_hv at h
  cases hw : xo_emit_walk xop fmt fmt.toList with
  | error e =>
    rw [hw] at h
    simp [Except.map] at h
  | ok x1 =>
    rw [hw] at h
    simp only [Except.map, Except.ok.injEq, Prod.mk.injEq] at h
    obtain ⟨hw1, hrc⟩ := h
    refine ⟨subst x1.xo_fmtbuf, ?_, hrc.symm⟩
    rw [← hw1]
    simp [xo_emit_walk_out fmt.toList.length fmt.toList (le_refl _) _ _ _ hw]

/-- A JSON handle whose sink write callback always returns -5. -/
def negSinkH : xo_handle_t :=
  { xo_create .json {} none with xo_sink := fun _ => -5 }

/-- C5 counterexample: `xo_close_list_h` performs its sink write — whose
return value here is -5 — but executes `return 0`, discarding `rc`; so the
structural operation does not return the result of its underlying sink
write. -/
theorem close_list_discards_sink_result :
    (xoStep negSinkH (.opL "a")).xo_sink [']'] = -5 ∧
    (xo_close_list_h (xoStep negSinkH (.opL "a")) "a").1.xo_out =
      (xoStep negSinkH (.opL "a")).xo_out ++ [[ ']' ]] ∧
    (xo_close_list_h (xoStep negSinkH (.opL "a")) "a").2 = 0 ∧
    (0 : Int) ≠ -5 := by
  decide

/-- C5 amended.  `open_container`/`close_container`/`open_instance`/
`close_instance` (in the styles where they write, XML and JSON) and
`open_list` (JSON) each perform one sink write and return the write
callback's return value.  `close_list` performs its write but always returns
0, discarding the callback's result.  `xo_emit_hv` (and so `emit`/`emit_h`)
performs one sink write but returns the substitution pass's byte count; the
write callback's return value is unused. -/
theorem sink_return_propagation (xop : xo_handle_t) (n : String)
    (fmt : String) (subst : List Char → List Char) :
    (xo_close_list_h xop n).2 = 0 ∧
    (xop.xo_style = .json →
      ∃ c, (xo_close_list_h xop n).1.xo_out = xop.xo_out ++ [c]) ∧
    (xop.xo_style = .xml ∨ xop.xo_style = .json →
      (∃ c, (xo_open_container_h xop n).1.xo_out = xop.xo_out ++ [c] ∧
        (xo_open_container_h xop n).2 = xop.xo_sink c) ∧
      (∃ c, (xo_close_container_h xop n).1.xo_out = xop.xo_out ++ [c] ∧
        (xo_close_container_h xop n).2 = xop.xo_sink c) ∧
      (∃ c, (xo_open_instance_h xop n).1.xo_out = xop.xo_out ++ [c] ∧
        (xo_open_instance_h xop n).2 = xop.xo_sink c) ∧
      (∃ c, (xo_close_instance_h xop n).1.xo_out = xop.xo_out ++ [c] ∧
        (xo_close_instance_h xop n).2 = xop.xo_sink c)) ∧
    (xop.xo_style = .json →
      ∃ c, (xo_open_list_h xop n).1.xo_out = xop.xo_out ++ [c] ∧
        (xo_open_list_h xop n).2 = xop.xo_sink c) ∧
    (∀ w rc, xo_emit_hv xop fmt subst = .ok (w, rc) →
      ∃ c, w.xo_out = xop.xo_out ++ [c] ∧ rc = (c.length : Int)) := by
  refine ⟨?_, ?_, ?_, ?_, ?_⟩
  · cases hst : xop.xo_style <;>
      simp [xo_close_list_h, hst]
  · intro hs
    unfold xo_close_list_h
    rw [hs]
    dsimp only
    refine ⟨(if (xop.xo_stack xop.xo_depth.toNat).xs_notFirst then
        (if xop.xo_flags.pretty then ['\n'] else []) else []) ++
      (spaces (xo_indent_spaces
          (xo_depth_change (markNotFirst xop) n (-1) (-1) { list := true })) ++
        [']']), ?_⟩
    simp [xo_printf, markNotFirst]
  · intro hs
    have hoc : ∃ c, (xo_open_container_h xop n).1.xo_out = xop.xo_out ++ [c] ∧
        (xo_open_container_h xop n).2 = xop.xo_sink c := by
      rcases hs with hs | hs <;>
        (unfold xo_open_container_h
         rw [hs]
         dsimp only
         exact ⟨_, by simp [xo_printf, markNotFirst], rfl⟩)
    have hoi : ∃ c, (xo_open_instance_h xop n).1.xo_out = xop.xo_out ++ [c] ∧
        (xo_open_instance_h xop n).2 = xop.xo_sink c := by
      rcases hs with hs | hs <;>
        (unfold xo_open_instance_h
         rw [hs]
         dsimp only
         exact ⟨_, by simp [xo_printf, markNotFirst], rfl⟩)
    have hcc : ∃ c, (xo_close_container_h xop n).1.xo_out = xop.xo_out ++ [c] ∧
        (xo_close_container_h xop n).2 = xop.xo_sink c := by
      rcases hs with hs | hs
      · unfold xo_close_container_h
        rw [hs]
        dsimp only
        refine ⟨spaces (xo_indent_spaces (xo_depth_change xop n (-1) (-1) {})) ++
          '<' :: '/' :: n.toList ++ ['>'] ++
            ppnOf (xo_depth_change xop n (-1) (-1) {}), ?_, ?_⟩ <;>
          simp [xo_printf]
      · unfold xo_close_container_h
        rw [hs]
        dsimp only
        refine ⟨(if xop.xo_flags.pretty then ['\n'] else []) ++
          (spaces (xo_indent_spaces (xo_depth_change xop n (-1) (-1) {})) ++
            rbrace :: (if xop.xo_depth ≤ 1 then ['\n'] else [])), ?_, ?_⟩ <;>
          simp [xo_printf, markNotFirst]
    have hci : ∃ c, (xo_close_instance_h xop n).1.xo_out = xop.xo_out ++ [c] ∧
        (xo_close_instance_h xop n).2 = xop.xo_sink c := by
      rcases hs with hs | hs
      · unfold xo_close_instance_h
        rw [hs]
        dsimp only
        refine ⟨spaces (xo_indent_spaces (xo_depth_change xop n (-1) (-1) {})) ++
          '<' :: '/' :: n.toList ++ ['>'] ++
            ppnOf (xo_depth_change xop n (-1) (-1) {}), ?_, ?_⟩ <;>
          simp [xo_printf]
      · unfold xo_close_instance_h
        rw [hs]
        dsimp only
        refine ⟨(if xop.xo_flags.pretty then ['\n'] else []) ++
          (spaces (xo_indent_spaces (xo_depth_change xop n (-1) (-1) {})) ++
            [rbrace]), ?_, ?_⟩ <;>
          simp [xo_printf, markNotFirst]
    exact ⟨hoc, hcc, hoi, hci⟩
  · intro hs
    unfold xo_open_list_h
    rw [hs]
    dsimp only
    exact ⟨_, by simp [xo_printf, markNotFirst], rfl⟩
  · intro w rc h
    exact xo_emit_hv_ok xop fmt subst w rc h

/-- C5 witness: the `close_list` conjuncts at a concrete JSON handle. -/
theorem sink_return_propagation_witness :
    (xo_close_list_h (jsonH {}) "a").2 = 0 ∧
    ((jsonH {}).xo_style = XoStyle.json →
      ∃ c, (xo_close_list_h (jsonH {}) "a").1.xo_out =
        (jsonH {}).xo_out ++ [c]) :=
  ⟨(sink_return_propagation (jsonH {}) "a" "" (fun s => s)).1,
    (sink_return_propagation (jsonH {}) "a" "" (fun s => s)).2.1⟩

/-- C6 (code bug).  The modifier loop of `xo_emit_hv` is
`for (sp = basep; sp; sp++)` — its condition is the pointer `sp`, never
false — so it stops only on `:`, `/` or `}`.  On the unterminated field
`{V` no such byte exists before the end of the string: the loop reads the
terminating NUL as just another (unknown-modifier) byte and keeps reading
past it.  The modelled scan reports the out-of-bounds read (`none` /
`oobRead`) where the claim expects an advisory warning and a best-effort
continuation. -/
theorem unterminated_field_reads_past_nul :
    modScan true "\x7bV" ['V'] {} = none ∧
    parseField true "\x7bV" ['V'] = none ∧
    xo_emit_hv (xo_create .text { warn := true } none) "\x7bV" (fun s => s) =
      .error .oobRead := by
  refine ⟨rfl, rfl, ?_⟩
  simp [xo_emit_hv, xo_emit_walk, parseField, modScan, lbrace, rbrace,
    Except.map]

/-- Sanity check for the call-sequence machine: on a JSON handle, the
machine's single-value emit `emitV "k" "%d"` produces the same sink output,
format-work buffer, depth, and byte count as the full emitter
`xo_emit_hv` on the assembled format string (identity substitution: the
format resolves against the caller's arguments later). -/
theorem emit_single_field_bridge :
    (xo_emit_hv (jsonH {}) "\x7b:k/%d\x7d" (fun s => s)).map
        (fun p => (p.1.xo_out, p.1.xo_fmtbuf, p.1.xo_depth, p.2)) =
      .ok ((xoStep (jsonH {}) (.emitV "k" "%d")).xo_out,
        (xoStep (jsonH {}) (.emitV "k" "%d")).xo_fmtbuf,
        (xoStep (jsonH {}) (.emitV "k" "%d")).xo_depth, 6) := by
  simp [xo_emit_hv, xo_emit_walk, parseField, modScan, lbrace, rbrace,
    Except.map, renderField, xoStep, emitFlush, xo_format_value, jsonH,
    xo_create, xo_init_handle, emptyHandle, xo_format_prep, markNotFirst,
    fmtAppend, xo_buf_indent, xo_indent_spaces, stackUpd]

end Libxo
